import Mathlib

/-!
Verification of the stream-diff repository (a Go data-stream comparator).

This file shallowly embeds the core of the repository in Lean:

* `internal/pkg/comparator/comparator.go` — the streaming comparator
  (`Compare`, `getRecordKey`, `shouldReportPeriodic`, `generateResult`,
  `compareRecords`, `valuesEqual`);
* `internal/pkg/schema/generator.go` — schema generation
  (`GenerateWithPatternDetection`, `sampleRecords`, `CollectFieldValues`,
  `inferType`, `analyzeFieldsWithPatterns`);
* `internal/pkg/patterndetection` — the detector factory (`CreateDetector`,
  `NewOnlineDetector`) and the offline heuristic detector (`DetectPatterns`,
  `detectEmailPattern`, `detectPhonePattern`, `detectURLPattern`,
  `detectIPPattern`, `detectUUIDPattern`).

Modelling conventions:

* Go `interface{}` values read from a record stream are one of: nil, string,
  number, bool, nested map, or slice.  They are modelled by the inductive
  `Value`; numbers are modelled as integers (every concrete number appearing
  in a claim is integral, and `fmt.Sprintf("%v")` of an integer is its
  decimal form).
* Go maps are modelled as association lists.  The order of an association
  list models the (unspecified, per-range randomized) iteration order of the
  Go map; wherever a claim depends on iteration order the order is made an
  explicit parameter: an `RMap → RMap` reordering for the key maps and a
  `List String → List String` reordering (`fieldOrd`) for `compareRecords`'
  field-union set map, both constrained to permutations.
* Wall-clock time does not exist in the embedding.  The comparator's
  time-interval trigger condition `time.Since(lastReportTime).Seconds() >=
  float64(cfg.TimeInterval)` is abstracted into a Boolean oracle indexed by
  the number of records processed; every theorem below quantifies over the
  oracle, so it holds for every possible timing behaviour.
* Record sources are pure lists of records; `Read` returning `io.EOF` is the
  end of the list.  I/O read errors are outside the embedded state space
  (no claim concerns them); the periodic callback is modelled as a total
  function into `Except String Unit` (Go's `nil` callback corresponds to the
  always-`ok` callback, since the nil-check only skips the invocation).
* `fmt.Sprintf("%v", v)` is modelled by `sprintv`: strings print as
  themselves, integers in decimal, booleans as "true"/"false", nil as
  "<nil>", maps as "map[k1:v1 k2:v2]" with keys sorted (Go's fmt sorts map
  keys), slices as "[v1 v2]".
-/

namespace StreamDiff

/-- A dynamic value read from a record stream (Go `interface{}` after JSON
decoding): nil, string, number (modelled as an integer), bool, nested map,
or slice. -/
inductive Value where
  | vnull
  | vstr (s : String)
  | vint (n : Int)
  | vbool (b : Bool)
  | vobj (fields : List (String × Value))
  | varr (elems : List Value)
  deriving Repr, Inhabited

/-- A record (Go `datareader.Record`, i.e. `map[string]interface{}`),
modelled as an association list from field name to value. -/
abbrev Record := List (String × Value)

/-! ### String utilities (byte-order comparison, for fmt's sorted map keys) -/

/-- Lexicographic comparison of char lists by code point (for ASCII data this
coincides with Go's byte-wise string order used by fmt when printing maps). -/
def strLeGo : List Char → List Char → Bool
  | [], _ => true
  | _ :: _, [] => false
  | c :: cs, d :: ds =>
    if c.toNat < d.toNat then true
    else if d.toNat < c.toNat then false
    else strLeGo cs ds

/-- String order used for printing Go maps with sorted keys. -/
def strLe (a b : String) : Bool := strLeGo a.toList b.toList

/-- Insert one key-tagged rendered entry into a sorted list (stable). -/
def insertEntry (x : String × String) : List (String × String) → List (String × String)
  | [] => [x]
  | y :: ys => if strLe x.1 y.1 then x :: y :: ys else y :: insertEntry x ys

/-- Insertion sort of key-tagged rendered entries by key, modelling that
fmt prints Go map entries in sorted key order. -/
def sortEntries : List (String × String) → List (String × String)
  | [] => []
  | x :: xs => insertEntry x (sortEntries xs)

/-! ### `fmt.Sprintf("%v", v)` -/

mutual
/-- Go's `fmt.Sprintf("%v", v)` on a dynamic value: nil prints "<nil>",
strings print raw, integers in decimal, bools as true/false, maps as
`map[k1:v1 ...]` with sorted keys, slices as `[e1 e2]`. -/
def sprintv : Value → String
  | .vnull => "<nil>"
  | .vstr s => s
  | .vint n => toString n
  | .vbool b => if b then "true" else "false"
  | .vobj fields =>
      "map[" ++ String.intercalate " " ((sortEntries (sprintFields fields)).map Prod.snd) ++ "]"
  | .varr elems => "[" ++ String.intercalate " " (sprintElems elems) ++ "]"

/-- Renders each map entry as `key:value`, tagged with its key for sorting. -/
def sprintFields : List (String × Value) → List (String × String)
  | [] => []
  | (k, v) :: rest => (k, k ++ ":" ++ sprintv v) :: sprintFields rest

/-- Renders each slice element. -/
def sprintElems : List Value → List String
  | [] => []
  | v :: rest => sprintv v :: sprintElems rest
end

/-! ## Comparator (`internal/pkg/comparator/comparator.go`) -/

/-- `FieldDiff` (comparator.go): a per-field difference.  In Go the two
values are `interface{}` and a side missing the field stores the nil zero
value (serialized as the absent sentinel); here a missing side is `none`. -/
structure FieldDiff where
  field : String
  source1Value : Option Value
  source2Value : Option Value
  deriving Repr, Inhabited

/-- `ComparisonResult` (comparator.go).  The `Timestamp` field
(`time.Now()`) is wall-clock output and has no counterpart in the
embedding; all other fields are carried. -/
structure ComparisonResult where
  recordsProcessed : Nat
  source1Records : Nat
  source2Records : Nat
  matchingKeys : Nat
  identicalRows : Nat
  keysOnlyInSource1 : List String
  keysOnlyInSource2 : List String
  valueDiffs : List (String × List FieldDiff)
  isPeriodicReport : Bool
  deriving Repr, Inhabited

/-- A key→record map (Go `map[string]datareader.Record`), as an association
list whose order models the map's iteration order. -/
abbrev RMap := List (String × Record)

/-- Go map lookup `m[k]` on the association list. -/
def findRec : RMap → String → Option Record
  | [], _ => none
  | (k', r) :: rest, k => if k' = k then some r else findRec rest k

/-- Go map assignment `m[k] = r`: replaces the entry if the key is present,
otherwise appends it. -/
def insertR : RMap → String → Record → RMap
  | [], k, r => [(k, r)]
  | (k', r') :: rest, k, r =>
      if k' = k then (k, r) :: rest else (k', r') :: insertR rest k r

/-- Record field lookup `record[field]`. -/
def lookupField : Record → String → Option Value
  | [], _ => none
  | (k', v) :: rest, k => if k' = k then some v else lookupField rest k

/-- `getRecordKey` (comparator.go:137): empty configured key field, a
missing key field, or any of these yields the empty string; otherwise the
`fmt.Sprintf("%v")` rendering of the field's value. -/
def getRecordKey (keyField : String) (record : Record) : String :=
  if keyField = "" then ""
  else
    match lookupField record keyField with
    | none => ""
    | some v => sprintv v

/-- `valuesEqual` (comparator.go:272): nil equals only nil; otherwise the
`%v` renderings are compared as strings. -/
def valuesEqual (v1 v2 : Value) : Bool :=
  match v1, v2 with
  | .vnull, .vnull => true
  | .vnull, _ => false
  | _, .vnull => false
  | _, _ => sprintv v1 = sprintv v2

/-- First-occurrence duplicate removal, computing the `allFields` set of
`compareRecords` as a canonical base list; the unspecified iteration
order of that Go set map is supplied separately as a permutation-valued
`fieldOrd` parameter. -/
def dedupStr (l : List String) : List String := go [] l where
  go (seen : List String) : List String → List String
    | [] => []
    | s :: rest => if seen.contains s then go seen rest else s :: go (s :: seen) rest

/-- `compareRecords` (comparator.go:238): over the union of both records'
field names, a field with both sides absent is skipped; a field missing on
one side, or whose values are not `valuesEqual`, yields a `FieldDiff`.
`fieldOrd` models the randomized iteration order of the Go `allFields`
set map: it reorders the canonical union list, and every theorem
quantifies over it (constrained to permutations where an order is
compared against another). -/
def compareRecords (fieldOrd : List String → List String)
    (record1 record2 : Record) : List FieldDiff :=
  (fieldOrd (dedupStr (record1.map Prod.fst ++ record2.map Prod.fst))).filterMap fun field =>
    match lookupField record1 field, lookupField record2 field with
    | none, none => none
    | some a, some b =>
        if valuesEqual a b then none else some ⟨field, some a, some b⟩
    | v1, v2 => some ⟨field, v1, v2⟩

/-- The keys-only-in loop of `generateResult` (comparator.go:205): keys of
`m` with no entry in `other`, in `m`'s iteration order. -/
def keysOnlyIn : RMap → RMap → List String
  | [], _ => []
  | (k, _) :: rest, other =>
      if (findRec other k).isSome then keysOnlyIn rest other
      else k :: keysOnlyIn rest other

/-- The matching-keys loop of `generateResult` (comparator.go:220): counts
matching keys and identical rows and collects the value-diff entries, in
`m1`'s iteration order. -/
def matchLoop (fieldOrd : List String → List String) :
    RMap → RMap → Nat × Nat × List (String × List FieldDiff)
  | [], _ => (0, 0, [])
  | (k, r1) :: rest, m2 =>
      match findRec m2 k with
      | none => matchLoop fieldOrd rest m2
      | some r2 =>
          if (compareRecords fieldOrd r1 r2).isEmpty then
            ((matchLoop fieldOrd rest m2).1 + 1, (matchLoop fieldOrd rest m2).2.1 + 1,
             (matchLoop fieldOrd rest m2).2.2)
          else
            ((matchLoop fieldOrd rest m2).1 + 1, (matchLoop fieldOrd rest m2).2.1,
             (k, compareRecords fieldOrd r1 r2) :: (matchLoop fieldOrd rest m2).2.2)

/-- `generateResult` (comparator.go:191): assembles a `ComparisonResult`
from the two key maps and the running counters. -/
def generateResult (fieldOrd : List String → List String)
    (source1Records source2Records : RMap)
    (recordsProcessed source1Count source2Count : Nat)
    (isPeriodicReport : Bool) : ComparisonResult :=
  { recordsProcessed := recordsProcessed
    source1Records := source1Count
    source2Records := source2Count
    matchingKeys := (matchLoop fieldOrd source1Records source2Records).1
    identicalRows := (matchLoop fieldOrd source1Records source2Records).2.1
    keysOnlyInSource1 := keysOnlyIn source1Records source2Records
    keysOnlyInSource2 := keysOnlyIn source2Records source1Records
    valueDiffs := (matchLoop fieldOrd source1Records source2Records).2.2
    isPeriodicReport := isPeriodicReport }

/-- `generatePeriodicResult` (comparator.go:174). -/
def generatePeriodicResult (fieldOrd : List String → List String) (m1 m2 : RMap)
    (rp c1 c2 : Nat) : ComparisonResult :=
  generateResult fieldOrd m1 m2 rp c1 c2 true

/-- `generateFinalResult` (comparator.go:182). -/
def generateFinalResult (fieldOrd : List String → List String) (m1 m2 : RMap)
    (rp c1 c2 : Nat) : ComparisonResult :=
  generateResult fieldOrd m1 m2 rp c1 c2 false

/-- `config.PeriodicConfig` (config.go:30); the intervals are Go `int`s. -/
structure PeriodicConfig where
  enabled : Bool
  timeInterval : Int
  recordInterval : Int
  deriving Repr

/-- `shouldReportPeriodic` (comparator.go:151).  `timeTrig` stands for the
outcome of the wall-clock test `time.Since(lastReportTime).Seconds() >=
float64(cfg.TimeInterval)`, which has no pure counterpart; theorems
quantify over it. -/
def shouldReportPeriodic (cfg : PeriodicConfig) (timeTrig : Bool)
    (recordsProcessed lastReportRecords : Nat) : Bool :=
  if !cfg.enabled then false
  else if 0 < cfg.timeInterval && timeTrig then true
  else if 0 < cfg.recordInterval
      && cfg.recordInterval ≤ (recordsProcessed : Int) - (lastReportRecords : Int) then true
  else false

/-- The local state of `Compare` (comparator.go:58): the two key maps, the
records-processed counter, the two per-source counters, and the
records-at-last-report counter (`lastReportRecords`). -/
structure CompState where
  m1 : RMap
  m2 : RMap
  rp : Nat
  c1 : Nat
  c2 : Nat
  lrr : Nat
  deriving Repr

/-- The storing step of `Compare` (comparator.go:83): extract the key, and
store the record only when the key string is non-empty. -/
def storeByKey (keyField : String) (record : Record) (m : RMap) : RMap :=
  let key := getRecordKey keyField record
  if key = "" then m else insertR m key record

/-- The per-record counter/map update of `Compare`, before the periodic
check: bump the counters and store the record into the current source's
map. -/
def ingestRecord (keyField : String) (fromSource1 : Bool) (record : Record)
    (st : CompState) : CompState :=
  { m1 := if fromSource1 then storeByKey keyField record st.m1 else st.m1
    m2 := if fromSource1 then st.m2 else storeByKey keyField record st.m2
    rp := st.rp + 1
    c1 := if fromSource1 then st.c1 + 1 else st.c1
    c2 := if fromSource1 then st.c2 else st.c2 + 1
    lrr := st.lrr }

/-- One iteration of a `Compare` read loop (comparator.go:80 and :111):
ingest the record, then run the periodic check; a failing callback aborts
with the wrapped error, a successful one resets `lastReportRecords`.
`iterOrd` supplies the iteration order of each key map and `fieldOrd` the
iteration order of the field-union set whenever a result is generated. -/
def processOne (keyField : String) (cfg : PeriodicConfig) (timeTrig : Nat → Bool)
    (onPeriodicDiff : ComparisonResult → Except String Unit) (iterOrd : RMap → RMap)
    (fieldOrd : List String → List String)
    (fromSource1 : Bool) (record : Record) (st : CompState) : Except String CompState :=
  let st1 := ingestRecord keyField fromSource1 record st
  if shouldReportPeriodic cfg (timeTrig st1.rp) st1.rp st1.lrr then
    match onPeriodicDiff
        (generatePeriodicResult fieldOrd (iterOrd st1.m1) (iterOrd st1.m2)
          st1.rp st1.c1 st1.c2) with
    | .error e => .error ("error in periodic diff callback: " ++ e)
    | .ok _ => .ok { st1 with lrr := st1.rp }
  else .ok st1

/-- One full read loop of `Compare` (phase 1 when `fromSource1`, else
phase 2): drain the given source, aborting on the first error. -/
def comparePhase (keyField : String) (cfg : PeriodicConfig) (timeTrig : Nat → Bool)
    (onPeriodicDiff : ComparisonResult → Except String Unit) (iterOrd : RMap → RMap)
    (fieldOrd : List String → List String)
    (fromSource1 : Bool) : List Record → CompState → Except String CompState
  | [], st => .ok st
  | record :: rest, st =>
      match processOne keyField cfg timeTrig onPeriodicDiff iterOrd fieldOrd fromSource1
          record st with
      | .error e => .error e
      | .ok st' =>
          comparePhase keyField cfg timeTrig onPeriodicDiff iterOrd fieldOrd fromSource1
            rest st'

/-- The initial state of `Compare`. -/
def initState : CompState := ⟨[], [], 0, 0, 0, 0⟩

/-- `Compare` (comparator.go:58): drain source1, then source2, then emit the
final result (`IsPeriodicReport = false`). -/
def compare (keyField : String) (cfg : PeriodicConfig) (timeTrig : Nat → Bool)
    (onPeriodicDiff : ComparisonResult → Except String Unit) (iterOrd : RMap → RMap)
    (fieldOrd : List String → List String)
    (source1 source2 : List Record) : Except String ComparisonResult :=
  match comparePhase keyField cfg timeTrig onPeriodicDiff iterOrd fieldOrd true source1
      initState with
  | .error e => .error e
  | .ok st1 =>
      match comparePhase keyField cfg timeTrig onPeriodicDiff iterOrd fieldOrd false source2
          st1 with
      | .error e => .error e
      | .ok st2 =>
          .ok (generateFinalResult fieldOrd (iterOrd st2.m1) (iterOrd st2.m2)
            st2.rp st2.c1 st2.c2)

/-! ## Field flattening (`CollectFieldValues`, generator.go:169) -/

/-- Size of a value, used as the termination measure of the breadth-first
flattening queue. -/
def vsize : Value → Nat
  | .vnull | .vstr _ | .vint _ | .vbool _ => 1
  | .vobj fields => 1 + vsizeFields fields
  | .varr elems => 1 + vsizeElems elems
where
  vsizeFields : List (String × Value) → Nat
    | [] => 0
    | (_, v) :: rest => vsize v + vsizeFields rest
  vsizeElems : List Value → Nat
    | [] => 0
    | v :: rest => vsize v + vsizeElems rest

/-- Total size of a flattening work queue. -/
def queueSize (q : List (Value × String)) : Nat :=
  (q.map (fun p => vsize p.1)).sum

/-- Appends an observed value to `fieldValues[k]` (Go
`fieldValues[prefix] = append(fieldValues[prefix], v)`): extend the entry
if the path is present, otherwise add a new entry. -/
def appendVal (acc : List (String × List Value)) (k : String) (v : Value) :
    List (String × List Value) :=
  match acc with
  | [] => [(k, [v])]
  | (k', vs) :: rest =>
      if k' = k then (k', vs ++ [v]) :: rest else (k', vs) :: appendVal rest k v

/-- `CollectFieldValues` (generator.go:169): breadth-first walk over a work
queue of (value, path-prefix) pairs.  nil values are skipped entirely; a
map is recorded under its own (non-empty) prefix and its children are
enqueued under `prefix.key` (or `key` for an empty prefix); a slice is
recorded under its own (non-empty) prefix and its elements are enqueued
under `prefix[]`; a scalar is recorded under its (non-empty) prefix.
Values with an empty prefix are never recorded. -/
def collectFieldValues : List (Value × String) → List (String × List Value) →
    List (String × List Value)
  | [], acc => acc
  | (v, pre) :: queue, acc =>
    match v with
    | .vnull => collectFieldValues queue acc
    | .vobj fields =>
        let acc' := if pre = "" then acc else appendVal acc pre (.vobj fields)
        collectFieldValues
          (queue ++ fields.map (fun kv => (kv.2, if pre = "" then kv.1 else pre ++ "." ++ kv.1)))
          acc'
    | .varr elems =>
        let acc' := if pre = "" then acc else appendVal acc pre (.varr elems)
        collectFieldValues (queue ++ elems.map (fun e => (e, pre ++ "[]"))) acc'
    | sc =>
        if pre = "" then collectFieldValues queue acc
        else collectFieldValues queue (appendVal acc pre sc)
  termination_by q _ => queueSize q
  decreasing_by
  all_goals
    have hone : ∀ v : Value, 1 ≤ vsize v := by intro v; cases v <;> simp [vsize]
    simp [queueSize, List.map_append, List.sum_append]
  · have := hone Value.vnull; omega
  · have h : ∀ (fs : List (String × Value)) (f : String × Value → String),
        (List.map ((fun p => vsize p.1) ∘ fun kv => (kv.2, f kv)) fs).sum
          = vsize.vsizeFields fs := by
      intro fs f
      induction fs with
      | nil => rfl
      | cons kv rest ih => simp [vsize.vsizeFields, List.map_cons] at ih ⊢; omega
    rw [h fields (fun kv => if pre = "" then kv.1 else pre ++ "." ++ kv.1)]
    have hv : vsize (Value.vobj fields) = 1 + vsize.vsizeFields fields := rfl
    omega
  · have h : ∀ (es : List Value) (f : Value → String),
        (List.map ((fun p => vsize p.1) ∘ fun e => (e, f e)) es).sum
          = vsize.vsizeElems es := by
      intro es f
      induction es with
      | nil => rfl
      | cons v rest ih => simp [vsize.vsizeElems, List.map_cons] at ih ⊢; omega
    rw [h elems (fun _ => pre ++ "[]")]
    have hv : vsize (Value.varr elems) = 1 + vsize.vsizeElems elems := rfl
    omega
  · have := hone sc; omega
  · have := hone sc; omega

/-! ## Type inference (`inferType`, generator.go:96) -/

/-- Is the value Go `nil`? -/
def isNullV : Value → Bool
  | .vnull => true
  | _ => false

/-- Does the Go type assertion `val.(map[string]interface{})` succeed? -/
def isObjV : Value → Bool
  | .vobj _ => true
  | _ => false

/-- Does the Go type assertion `val.([]interface{})` succeed? -/
def isArrV : Value → Bool
  | .varr _ => true
  | _ => false

/-- ASCII digit test. -/
def isDigitChar (c : Char) : Bool := 48 ≤ c.toNat && c.toNat ≤ 57

/-- ASCII letter test (the regex class `[a-zA-Z]`). -/
def isAsciiAlpha (c : Char) : Bool :=
  (65 ≤ c.toNat && c.toNat ≤ 90) || (97 ≤ c.toNat && c.toNat ≤ 122)

/-- ASCII lower-casing of one character. -/
def lowerAscii (c : Char) : Char :=
  if 65 ≤ c.toNat && c.toNat ≤ 90 then Char.ofNat (c.toNat + 32) else c

/-- Optional leading sign. -/
def stripSign : List Char → List Char
  | '+' :: r => r
  | '-' :: r => r
  | r => r

/-- Hexadecimal digit (either case), Go strconv's per-character hex test. -/
def isHexDigitAny (c : Char) : Bool :=
  isDigitChar c || (97 ≤ c.toNat && c.toNat ≤ 102) || (65 ≤ c.toNat && c.toNat ≤ 70)

/-- The scanning loop of Go strconv's `underscoreOK` (atof.go): tracks the
class of the previous character (`^` start, `0` digit or base prefix, `_`
underscore, `!` other); an underscore must directly follow and be
directly followed by a digit (hex digits when a `0x` prefix was seen),
and the string must not end in an underscore. -/
def underscoreScan (hex : Bool) : Char → List Char → Bool
  | saw, [] => saw ≠ '_'
  | saw, c :: rest =>
      if (!hex && isDigitChar c) || (hex && isHexDigitAny c) then underscoreScan hex '0' rest
      else if c = '_' then
        if saw = '0' then underscoreScan hex '_' rest else false
      else if saw = '_' then false
      else underscoreScan hex '!' rest

/-- Go strconv's `underscoreOK` (atof.go): after an optional sign and an
optional `0x`/`0X` base prefix (which counts as a digit), every
underscore must sit between digits. -/
def underscoreOK (cs : List Char) : Bool :=
  let cs1 := stripSign cs
  match cs1 with
  | '0' :: x :: rest =>
      if x = 'x' || x = 'X' then underscoreScan true '0' rest
      else underscoreScan false '^' cs1
  | _ => underscoreScan false '^' cs1

/-- Removes the digit-separating underscores before the grammar check
(Go's `readFloat` skips underscores while scanning and validates their
placement separately via `underscoreOK`). -/
def stripUnderscores (cs : List Char) : List Char := cs.filter (fun c => c ≠ '_')

/-- Mantissa check for `strconv.ParseFloat`: at most one dot, every other
character a digit, and at least one digit (`123`, `123.`, `.5`, `1.5`). -/
def mantissaOK (cs : List Char) : Bool :=
  cs ≠ [] && cs.all (fun c => isDigitChar c || c = '.')
    && cs.countP (fun c => c = '.') ≤ 1 && cs.any isDigitChar

/-- Hexadecimal mantissa check (the part between `0x` and `p`): at most
one dot, every other character a hex digit, at least one hex digit. -/
def hexMantissaOK (cs : List Char) : Bool :=
  cs ≠ [] && cs.all (fun c => isHexDigitAny c || c = '.')
    && cs.countP (fun c => c = '.') ≤ 1 && cs.any isHexDigitAny

/-- Exponent check for `strconv.ParseFloat`: optional sign then at least
one (decimal) digit. -/
def exponentOK (cs : List Char) : Bool :=
  let cs' := stripSign cs
  cs' ≠ [] && cs'.all isDigitChar

/-- Splits at the first `e`/`E`, returning mantissa and exponent parts. -/
def splitExp : List Char → List Char × Option (List Char)
  | [] => ([], none)
  | c :: rest =>
      if c = 'e' || c = 'E' then ([], some rest)
      else
        let (m, ex) := splitExp rest
        (c :: m, ex)

/-- Splits at the first `p`/`P` (the mandatory hex-float exponent
marker; `p` is not a hex digit, so the first occurrence is it). -/
def splitHexExp : List Char → List Char × Option (List Char)
  | [] => ([], none)
  | c :: rest =>
      if c = 'p' || c = 'P' then ([], some rest)
      else
        let (m, ex) := splitHexExp rest
        (c :: m, ex)

/-- Decimal value of a digit string. -/
def natFromDigits (cs : List Char) : Nat :=
  cs.foldl (fun a c => a * 10 + (c.toNat - 48)) 0

/-- Value of one hex digit. -/
def hexDigitVal (c : Char) : Nat :=
  if isDigitChar c then c.toNat - 48
  else if 97 ≤ c.toNat && c.toNat ≤ 102 then c.toNat - 87
  else if 65 ≤ c.toNat && c.toNat ≤ 70 then c.toNat - 55
  else 0

/-- Value of a hex digit string. -/
def natFromHexDigits (cs : List Char) : Nat :=
  cs.foldl (fun a c => a * 16 + hexDigitVal c) 0

/-- Number of mantissa characters after the (first) dot. -/
def fracDigitsLen (m : List Char) : Nat :=
  match m.dropWhile (fun c => c ≠ '.') with
  | [] => 0
  | _ :: t => t.length

/-- Signed value of an exponent part. -/
def expValue : Option (List Char) → Int
  | none => 0
  | some ('-' :: d) => -(natFromDigits d : Int)
  | some ('+' :: d) => (natFromDigits d : Int)
  | some d => (natFromDigits d : Int)

/-- The IEEE 754 binary64 overflow threshold 2^1024 − 2^970: under round
to nearest, ties to even, a value whose magnitude reaches this midpoint
rounds to infinity, which `strconv.ParseFloat` reports as a range error
(`err ≠ nil`, so `inferType` does not count the value as numeric). -/
def float64OverflowThreshold : Nat := 2 ^ 1024 - 2 ^ 970

/-- Does the exact value `m · base^e` overflow binary64 (reach the
rounding threshold to infinity)?  Stated as an exact integer
comparison. -/
def overflowsFloat64 (base m : Nat) (e : Int) : Bool :=
  if m = 0 then false
  else if 0 ≤ e then float64OverflowThreshold ≤ m * base ^ e.toNat
  else float64OverflowThreshold * base ^ (-e).toNat ≤ m

/-- Well-formedness and in-range test of an underscore-stripped decimal
float string (after the optional sign): mantissa, optional `e` exponent,
and no overflow of the exact value. -/
def decFloatOK (cs : List Char) : Bool :=
  let (m, ex) := splitExp cs
  let wellFormed :=
    match ex with
    | none => mantissaOK m
    | some e => mantissaOK m && exponentOK e
  wellFormed && !(overflowsFloat64 10 (natFromDigits (m.filter isDigitChar))
      (expValue ex - (fracDigitsLen m : Int)))

/-- Well-formedness and in-range test of an underscore-stripped hex float
string (after the sign and the `0x` prefix): hex mantissa, mandatory
`p` exponent in decimal, and no overflow of the exact value
`H · 2^(p − 4·fracLen)`. -/
def hexFloatOK (cs : List Char) : Bool :=
  match splitHexExp cs with
  | (_, none) => false
  | (m, some e) =>
      hexMantissaOK m && exponentOK e
        && !(overflowsFloat64 2 (natFromHexDigits (m.filter isHexDigitAny))
            (expValue (some e) - 4 * (fracDigitsLen m : Int)))

/-- Models `strconv.ParseFloat(s, 64)` succeeding with `err = nil`:
the special values `nan` and signed `inf`/`infinity` (case-insensitive);
otherwise an optional sign and either a decimal mantissa with optional
`e` exponent or a `0x` hex mantissa with mandatory `p` exponent, with
digit-separating underscores allowed per Go's placement rule — and the
exact value must not overflow binary64, since ParseFloat reports
overflow as a non-nil range error. -/
def parseFloatOK (s : String) : Bool :=
  let low := s.toList.map lowerAscii
  if low = "nan".toList then true
  else
    let low' := stripSign low
    if low' = "inf".toList || low' = "infinity".toList then true
    else
      underscoreOK s.toList &&
        (let cs := stripUnderscores (stripSign s.toList)
         match cs with
         | '0' :: x :: rest =>
             if x = 'x' || x = 'X' then hexFloatOK rest else decFloatOK cs
         | _ => decFloatOK cs)

/-- Is `y` a leap year (Gregorian rule, as in Go's `time`)? -/
def isLeapYear (y : Nat) : Bool :=
  y % 4 = 0 && (y % 100 ≠ 0 || y % 400 = 0)

/-- Days in a month, as validated by Go's `time.Parse`. -/
def daysInMonth (y m : Nat) : Nat :=
  if m = 2 then (if isLeapYear y then 29 else 28)
  else if m = 4 || m = 6 || m = 9 || m = 11 then 30
  else 31

/-- Reads exactly two digits. -/
def twoDigits : List Char → Option (Nat × List Char)
  | a :: b :: rest =>
      if isDigitChar a && isDigitChar b then
        some ((a.toNat - 48) * 10 + (b.toNat - 48), rest)
      else none
  | _ => none

/-- Reads exactly four digits. -/
def fourDigits : List Char → Option (Nat × List Char)
  | a :: b :: c :: d :: rest =>
      if isDigitChar a && isDigitChar b && isDigitChar c && isDigitChar d then
        some ((a.toNat - 48) * 1000 + (b.toNat - 48) * 100 + (c.toNat - 48) * 10
          + (d.toNat - 48), rest)
      else none
  | _ => none

/-- Reads a calendar date `YYYY-MM-DD` with Go's range validation. -/
def parseDateISO (cs : List Char) : Option (List Char) :=
  match fourDigits cs with
  | some (y, '-' :: r1) =>
      (match twoDigits r1 with
       | some (mo, '-' :: r2) =>
           (match twoDigits r2 with
            | some (d, r3) =>
                if 1 ≤ mo && mo ≤ 12 && 1 ≤ d && d ≤ daysInMonth y mo then some r3 else none
            | _ => none)
       | _ => none)
  | _ => none

/-- Go's `getnum(value, false)`: one digit, or two when the next character
is also a digit (used for the `15` hour field, which Go parses without
requiring zero padding). -/
def getnumFlexible : List Char → Option (Nat × List Char)
  | a :: b :: rest =>
      if isDigitChar a then
        if isDigitChar b then some ((a.toNat - 48) * 10 + (b.toNat - 48), rest)
        else some (a.toNat - 48, b :: rest)
      else none
  | a :: [] => if isDigitChar a then some (a.toNat - 48, []) else none
  | [] => none

/-- Reads a clock time `H(H):MM:SS` with Go's range validation: the hour is
one or two digits (layout `15` is parsed with `getnum(value, false)`),
the minute and second fields (`04`, `05`) require exactly two digits,
followed by an optional fractional-seconds part (Go's parser accepts a
fraction after the seconds even when the layout has none; `.` or `,`
then at least one digit). -/
def parseClock (cs : List Char) : Option (List Char) :=
  match getnumFlexible cs with
  | some (h, ':' :: r1) =>
      (match twoDigits r1 with
       | some (mi, ':' :: r2) =>
           (match twoDigits r2 with
            | some (s, r3) =>
                if h ≤ 23 && mi ≤ 59 && s ≤ 59 then
                  match r3 with
                  | sep :: d :: rest =>
                      if (sep = '.' || sep = ',') && isDigitChar d then
                        some (rest.dropWhile isDigitChar)
                      else some r3
                  | _ => some r3
                else none
            | _ => none)
       | _ => none)
  | _ => none

/-- Reads an RFC3339 offset as Go's generic parser does for the layout
chunk `Z07:00`: `Z`, or a sign followed by two digits, `:`, two digits —
the generic parser (which `time.Parse` falls back to when the strict
RFC3339 fast path fails) performs no range validation on the offset
fields. -/
def parseOffset : List Char → Option (List Char)
  | 'Z' :: rest => some rest
  | c :: rest =>
      if c = '+' || c = '-' then
        match twoDigits rest with
        | some (_, ':' :: r1) =>
            (match twoDigits r1 with
             | some (_, r2) => some r2
             | _ => none)
        | _ => none
      else none
  | [] => none

/-- Matches `time.RFC3339` / `time.RFC3339Nano` parsing (both accept the
same inputs when parsing: the fractional second is optional in each):
date, `T`, clock, optional fraction, offset. -/
def matchesRFC3339 (cs : List Char) : Bool :=
  match parseDateISO cs with
  | some ('T' :: r1) =>
      (match parseClock r1 with
       | some r2 => (parseOffset r2).isSome && (parseOffset r2).getD [] = []
       | none => false)
  | _ => false

/-- Matches layout `2006-01-02 15:04:05` (with Go's implicit optional
fractional second). -/
def matchesDateTimeNoZone (cs : List Char) : Bool :=
  match parseDateISO cs with
  | some (' ' :: r1) => (parseClock r1) = some []
  | _ => false

/-- Matches layout `2006-01-02`. -/
def matchesDateOnly (cs : List Char) : Bool := parseDateISO cs = some []

/-- Matches layout `01/02/2006` (month/day/year) with range validation. -/
def matchesSlashDate (cs : List Char) : Bool :=
  match twoDigits cs with
  | some (mo, '/' :: r1) =>
      (match twoDigits r1 with
       | some (d, '/' :: r2) =>
           (match fourDigits r2 with
            | some (y, r3) =>
                r3 = [] && 1 ≤ mo && mo ≤ 12 && 1 ≤ d && d ≤ daysInMonth y mo
            | _ => false)
       | _ => false)
  | _ => false

/-- Does the string parse under at least one of the five layouts tried by
`inferType` (generator.go:101): RFC3339, RFC3339Nano,
`2006-01-02 15:04:05`, `2006-01-02`, `01/02/2006`?  The layouts' numeric
fields follow Go's generic parser: four-digit year, two-digit month, day,
minute and second (`01`, `02`, `04`, `05` are zero-padded layout chunks),
a one- or two-digit hour (`15` is not), range validation on
year/month/day/hour/minute/second, an optional fractional second, and an
offset without range validation — `time.Parse` falls back to this generic
parser even for the RFC3339 layouts. -/
def matchesAnyLayout (s : String) : Bool :=
  let cs := s.toList
  matchesRFC3339 cs || matchesDateTimeNoZone cs || matchesDateOnly cs || matchesSlashDate cs

/-- The four category flags and non-nil counter of `inferType`'s loop. -/
structure TypeFlags where
  isNumericF : Bool
  isDateTimeF : Bool
  isObjectF : Bool
  isArrayF : Bool
  nonNilCount : Nat

/-- One iteration of `inferType`'s loop (generator.go:105): nil values are
skipped; otherwise each flag is cleared when its test fails on the value
(the numeric and datetime tests run on the `%v` rendering). -/
def inferStep (fl : TypeFlags) (val : Value) : TypeFlags :=
  if isNullV val then fl
  else
    let sVal := sprintv val
    { isObjectF := fl.isObjectF && isObjV val
      isArrayF := fl.isArrayF && isArrV val
      isNumericF := fl.isNumericF && parseFloatOK sVal
      isDateTimeF := fl.isDateTimeF && matchesAnyLayout sVal
      nonNilCount := fl.nonNilCount + 1 }

/-- `inferType` (generator.go:96): empty input or no non-nil values gives
"unknown"; otherwise the first surviving flag in the order object, array,
numeric, datetime wins, with "string" as the fallback. -/
def inferType (values : List Value) : String :=
  if values.length = 0 then "unknown"
  else
    let fl := values.foldl inferStep ⟨true, true, true, true, 0⟩
    if fl.nonNilCount = 0 then "unknown"
    else if fl.isObjectF then "object"
    else if fl.isArrayF then "array"
    else if fl.isNumericF then "numeric"
    else if fl.isDateTimeF then "datetime"
    else "string"

/-! ## Pattern detection (`internal/pkg/patterndetection`) -/

/-- A matcher (Go `Matcher = map[string]interface{}`, holding exactly one of
the shapes `{"regex": pattern}`, `{"isNumeric": true}`,
`{"isDateTime": true}`), modelled as the corresponding tagged union. -/
inductive Matcher where
  | regex (pattern : String)
  | numericM
  | dateTimeM
  deriving DecidableEq, Repr

/-- The canonical email pattern of `detectEmailPattern` (offline.go:62). -/
def emailPattern : String :=
  "^[a-zA-Z0-9._%+-]+@[a-zA-Z0-9.-]+\\.[a-zA-Z]\x7b2,\x7d$"

/-- Local-part character class `[a-zA-Z0-9._%+-]` of the email regex. -/
def isEmailLocalChar (c : Char) : Bool :=
  isAsciiAlpha c || isDigitChar c || c = '.' || c = '_' || c = '%' || c = '+' || c = '-'

/-- Domain character class `[a-zA-Z0-9.-]` of the email regex. -/
def isEmailDomainChar (c : Char) : Bool :=
  isAsciiAlpha c || isDigitChar c || c = '.' || c = '-'

/-- Matches the domain part `[a-zA-Z0-9.-]+\.[a-zA-Z]{2,}` of the email
regex: some split at a dot leaves a non-empty domain-class part before it
and at least two letters after it. -/
def emailDomainMatch (ds : List Char) : Bool :=
  (List.range ds.length).any fun j =>
    ds.getD j ' ' = '.' && 1 ≤ j && (ds.take j).all isEmailDomainChar
      && 2 ≤ (ds.drop (j + 1)).length && (ds.drop (j + 1)).all isAsciiAlpha

/-- Matches the full anchored email regex of offline.go:62: a non-empty
local part, `@`, and a matching domain part. -/
def emailRegexMatches (s : String) : Bool :=
  let cs := s.toList
  (List.range cs.length).any fun i =>
    cs.getD i ' ' = '@' && 1 ≤ i && (cs.take i).all isEmailLocalChar
      && emailDomainMatch (cs.drop (i + 1))

/-- Exact rational form of the Go test
`float64(count)/float64(total) > 0.8` (offline.go:72 etc.): for positive
totals the float computation decides the exact comparison count/total >
4/5 at these magnitudes, and for a zero total both give false (0/0 is NaN,
and NaN > 0.8 is false). -/
def gtFourFifths (count total : Nat) : Bool := 4 * total < 5 * count

/-- Exact rational form of `float64(count)/float64(total) > 0.5`
(offline.go:109). -/
def gtHalf (count total : Nat) : Bool := total < 2 * count

/-- `detectEmailPattern` (offline.go:61): returns the canonical pattern when
strictly more than 80% of the values match it, else the empty string. -/
def detectEmailPattern (values : List String) : String :=
  let matchCount := values.countP emailRegexMatches
  if gtFourFifths matchCount values.length then emailPattern else ""

/-- Go regexp `\s`, i.e. `[\t\n\f\r ]`. -/
def isGoSpace (c : Char) : Bool :=
  c = ' ' || c = '\t' || c = '\n' || c.toNat = 12 || c = '\r'

/-- Number of leading ASCII digits. -/
def leadDigits : List Char → Nat
  | [] => 0
  | c :: rest => if isDigitChar c then 1 + leadDigits rest else 0

/-- Phone regex branch `^\+?[1-9]\d{1,14}$`. -/
def phoneBranch1 (cs : List Char) : Bool :=
  let cs' := match cs with
    | '+' :: r => r
    | r => r
  match cs' with
  | c :: rest =>
      (49 ≤ c.toNat && c.toNat ≤ 57) && 1 ≤ rest.length && rest.length ≤ 14
        && rest.all isDigitChar
  | [] => false

/-- Phone regex branch `^\(\d{3}\)\s\d{3}-\d{4}$`. -/
def phoneBranch2 (cs : List Char) : Bool :=
  match cs with
  | '(' :: a :: b :: c :: ')' :: w :: d :: e :: f :: '-' :: g :: h :: i :: j :: [] =>
      isGoSpace w && [a, b, c, d, e, f, g, h, i, j].all isDigitChar
  | _ => false

/-- Phone regex branch `^\d{3}-\d{3}-\d{4}$`. -/
def phoneBranch3 (cs : List Char) : Bool :=
  match cs with
  | a :: b :: c :: '-' :: d :: e :: f :: '-' :: g :: h :: i :: j :: [] =>
      [a, b, c, d, e, f, g, h, i, j].all isDigitChar
  | _ => false

/-- Phone regex branch `^\d{10,15}$`. -/
def phoneBranch4 (cs : List Char) : Bool :=
  10 ≤ cs.length && cs.length ≤ 15 && cs.all isDigitChar

/-- The full phone regex of offline.go:80 (alternation of the four
branches). -/
def phoneRegexMatches (s : String) : Bool :=
  let cs := s.toList
  phoneBranch1 cs || phoneBranch2 cs || phoneBranch3 cs || phoneBranch4 cs

/-- The pattern string returned by `detectPhonePattern` (offline.go:110;
note it omits the matcher's fourth branch `^\d{10,15}$`). -/
def phonePattern : String :=
  "^\\+?[1-9]\\d\x7b1,14\x7d$|^\\(\\d\x7b3\x7d\\)\\s\\d\x7b3\x7d-\\d\x7b4\x7d$|^\\d\x7b3\x7d-\\d\x7b3\x7d-\\d\x7b4\x7d$"

/-- `detectPhonePattern` (offline.go:79): counts values of length ≥ 7 that
match the phone regex (the loop's inner `len(val) <= 3` skip is
unreachable under the `len(val) < 7` guard; Go `len` is the byte length,
which equals the character count on the ASCII data concerned); requires
the count ratio strictly above 80%, a non-empty input, and strictly more
than half of the values of length ≥ 7. -/
def detectPhonePattern (values : List String) : String :=
  let matchCount := values.countP (fun v => 7 ≤ v.toList.length && phoneRegexMatches v)
  if gtFourFifths matchCount values.length && decide (0 < values.length) then
    let longValueCount := values.countP (fun v => 7 ≤ v.toList.length)
    if gtHalf longValueCount values.length then phonePattern else ""
  else ""

/-- The URL pattern of offline.go:118. -/
def urlPattern : String := "^https?://[^\\s/$.?#].[^\\s]*$"

/-- Matches the part after `://` of the URL regex: one character outside
`[\s/$.?#]`, one character other than newline (regexp `.`), then any
number of non-space characters. -/
def urlTail (cs : List Char) : Bool :=
  match cs with
  | c1 :: c2 :: rest =>
      !isGoSpace c1 && c1 ≠ '/' && c1 ≠ '$' && c1 ≠ '.' && c1 ≠ '?' && c1 ≠ '#'
        && c2 ≠ '\n' && rest.all (fun c => !isGoSpace c)
  | _ => false

/-- Matches the full anchored URL regex `^https?://[^\s/$.?#].[^\s]*$`. -/
def urlRegexMatches (s : String) : Bool :=
  match s.toList with
  | 'h' :: 't' :: 't' :: 'p' :: rest =>
      (match rest with
       | 's' :: ':' :: '/' :: '/' :: tail => urlTail tail
       | ':' :: '/' :: '/' :: tail => urlTail tail
       | _ => false)
  | _ => false

/-- `detectURLPattern` (offline.go:117). -/
def detectURLPattern (values : List String) : String :=
  let matchCount := values.countP urlRegexMatches
  if gtFourFifths matchCount values.length then urlPattern else ""

/-- The IPv4 pattern of offline.go:135. -/
def ipPattern : String :=
  "^\\d\x7b1,3\x7d\\.\\d\x7b1,3\x7d\\.\\d\x7b1,3\x7d\\.\\d\x7b1,3\x7d$"

/-- Matches `n` dot-separated groups of one to three digits (the greedy
`\d{1,3}` must stop exactly at a dot or at the end, so the leading-digit
count determines the unique candidate split). -/
def ipGroups : Nat → List Char → Bool
  | 0, _ => false
  | 1, cs =>
      let k := leadDigits cs
      1 ≤ k && k ≤ 3 && (cs.drop k).isEmpty
  | n + 2, cs =>
      let k := leadDigits cs
      1 ≤ k && k ≤ 3 &&
        (match cs.drop k with
         | '.' :: rest => ipGroups (n + 1) rest
         | _ => false)

/-- Matches the full anchored IPv4 regex `^\d{1,3}\.\d{1,3}\.\d{1,3}\.\d{1,3}$`. -/
def ipRegexMatches (s : String) : Bool := ipGroups 4 s.toList

/-- `detectIPPattern` (offline.go:134). -/
def detectIPPattern (values : List String) : String :=
  let matchCount := values.countP ipRegexMatches
  if gtFourFifths matchCount values.length then ipPattern else ""

/-- The UUID pattern of offline.go:152. -/
def uuidPattern : String :=
  "^[0-9a-f]\x7b8\x7d-[0-9a-f]\x7b4\x7d-[1-5][0-9a-f]\x7b3\x7d-[89ab][0-9a-f]\x7b3\x7d-[0-9a-f]\x7b12\x7d$"

/-- Lower-case hexadecimal digit. -/
def isHexLower (c : Char) : Bool :=
  isDigitChar c || (97 ≤ c.toNat && c.toNat ≤ 102)

/-- Consumes exactly `n` lower-case hex digits. -/
def takeHex : Nat → List Char → Option (List Char)
  | 0, cs => some cs
  | n + 1, c :: cs => if isHexLower c then takeHex n cs else none
  | _ + 1, [] => none

/-- Matches the anchored UUID regex of offline.go:152 against the
lower-cased input (Go applies `strings.ToLower` before matching; ASCII
lower-casing is modelled, which agrees with Go on the hex/dash data the
regex can accept). -/
def uuidRegexMatches (s : String) : Bool :=
  let cs := s.toList.map lowerAscii
  match takeHex 8 cs with
  | some ('-' :: r1) =>
      (match takeHex 4 r1 with
       | some ('-' :: r2) =>
           (match r2 with
            | v :: r3 =>
                (49 ≤ v.toNat && v.toNat ≤ 53) &&
                  (match takeHex 3 r3 with
                   | some ('-' :: r4) =>
                       (match r4 with
                        | w :: r5 =>
                            (w = '8' || w = '9' || w = 'a' || w = 'b') &&
                              (match takeHex 3 r5 with
                               | some ('-' :: r6) => takeHex 12 r6 = some []
                               | _ => false)
                        | [] => false)
                   | _ => false)
            | [] => false)
       | _ => false)
  | _ => false

/-- `detectUUIDPattern` (offline.go:151). -/
def detectUUIDPattern (values : List String) : String :=
  let matchCount := values.countP uuidRegexMatches
  if gtFourFifths matchCount values.length then uuidPattern else ""

/-- `OfflineDetector.DetectPatterns` (offline.go:21): stringify the non-nil
values, try email, phone, URL, IPv4, UUID in order (first non-empty
pattern wins as the sole regex matcher), else fall back to the type-based
matcher for numeric/datetime fields, else no matcher.  The unused
`fieldName` parameter is kept for signature fidelity. -/
def offlineDetectPatterns (_fieldName fieldType : String) (values : List Value) :
    List Matcher :=
  if values.length = 0 then []
  else
    let stringValues := (values.filter (fun v => !isNullV v)).map sprintv
    if stringValues.length = 0 then []
    else
      let e := detectEmailPattern stringValues
      if e ≠ "" then [.regex e]
      else
        let p := detectPhonePattern stringValues
        if p ≠ "" then [.regex p]
        else
          let u := detectURLPattern stringValues
          if u ≠ "" then [.regex u]
          else
            let ip := detectIPPattern stringValues
            if ip ≠ "" then [.regex ip]
            else
              let uu := detectUUIDPattern stringValues
              if uu ≠ "" then [.regex uu]
              else if fieldType = "numeric" then [.numericM]
              else if fieldType = "datetime" then [.dateTimeM]
              else []

/-! ## Detector factory (`CreateDetector`) and schema generation -/

/-- `config.OnlineAPIConfig`: the fields read by `NewOnlineDetector` and the
online detector (the struct's declaration file is summarized by its use
sites: APIKey, Provider, Endpoint, Model). -/
structure OnlineAPIConfig where
  apiKey : String
  provider : String
  endpoint : String
  model : String
  deriving DecidableEq, Repr

/-- `config.PatternDetection`: enable flag, mode string, and the two
per-mode sub-configurations (the offline one is opaque here — the offline
detector never reads it). -/
structure PatternDetectionConfig where
  enabled : Bool
  mode : String
  offlineModel : Option Unit
  onlineAPI : Option OnlineAPIConfig
  deriving DecidableEq, Repr

/-- The three detector variants produced by the factory. -/
inductive Detector where
  | noOpDet
  | offlineDet (cfg : Option Unit)
  | onlineDet (cfg : OnlineAPIConfig)
  deriving DecidableEq, Repr

/-- `NewOnlineDetector` (patterndetection, online detector file): nil
configuration and empty API key are rejected; an empty provider defaults
to "claude". -/
def newOnlineDetector (cfg : Option OnlineAPIConfig) : Except String Detector :=
  match cfg with
  | none => .error "online API configuration is required"
  | some c =>
      if c.apiKey = "" then .error "API key is required for online mode"
      else .ok (.onlineDet { c with provider := if c.provider = "" then "claude" else c.provider })

/-- `DetectorFactory.CreateDetector` (patterndetection factory file): nil or
disabled configuration gives the no-op detector; mode "offline" the
offline detector; mode "online" the online detector (after credential
checks); any other mode is a configuration error. -/
def createDetector (cfg : Option PatternDetectionConfig) : Except String Detector :=
  match cfg with
  | none => .ok .noOpDet
  | some c =>
      if !c.enabled then .ok .noOpDet
      else if c.mode = "offline" then .ok (.offlineDet c.offlineModel)
      else if c.mode = "online" then newOnlineDetector c.onlineAPI
      else .error ("unsupported pattern detection mode: " ++ c.mode)

/-- `PatternDetector.DetectPatterns` dispatch: the no-op detector returns no
matchers; the offline detector runs the heuristic chain.  The online
detector performs a blocking HTTP call, which a pure embedding cannot
execute; it is mapped to a detection error (no claim depends on online
detection results, and `analyzeFieldsWithPatterns` degrades every
detection error to an empty matcher list). -/
def detectorDetect (det : Detector) (fieldName fieldType : String) (values : List Value) :
    Except String (List Matcher) :=
  match det with
  | .noOpDet => .ok []
  | .offlineDet _ => .ok (offlineDetectPatterns fieldName fieldType values)
  | .onlineDet _ => .error "online detection requires a network call"

/-- `schema.Field` (schema type file): inferred type, stats, matchers. -/
structure Field where
  type : String
  stats : List String
  matchers : List Matcher
  deriving DecidableEq, Repr

/-- `schema.Schema` (schema type file): key, max key size, fields. -/
structure Schema where
  key : String
  maxKeySize : Int
  fields : List (String × Field)
  deriving DecidableEq, Repr

/-- `DefaultSampleSize` (generator.go:14). -/
def defaultSampleSize : Nat := 1000

/-- `config.Sampler` (config.go:50). -/
structure Sampler where
  sampleSize : Int
  deriving DecidableEq, Repr

/-- The sample-size selection of `GenerateWithPatternDetection`
(generator.go:23): a present, strictly positive configured size wins,
otherwise the default of 1000. -/
def effectiveSampleSize (samplerConfig : Option Sampler) : Nat :=
  match samplerConfig with
  | some c => if 0 < c.sampleSize then c.sampleSize.toNat else defaultSampleSize
  | none => defaultSampleSize

/-- `sampleRecords` (generator.go:149): up to `sampleSize` `Read` calls; a
call either yields a record or hits the end of the stream (Go `io.EOF`),
which stops the loop without an error.  Returns the sampled records and
the number of `Read` calls issued. -/
def sampleRecords : List Record → Nat → List Record × Nat
  | _, 0 => ([], 0)
  | [], _ + 1 => ([], 1)
  | r :: rest, n + 1 =>
      (r :: (sampleRecords rest n).1, (sampleRecords rest n).2 + 1)

/-- `analyzeFieldsWithPatterns` (generator.go:68): per field path, infer the
type and run the detector; a detection error is logged and degraded to an
empty matcher list. -/
def analyzeFieldsWithPatterns (fieldValues : List (String × List Value)) (det : Detector) :
    List (String × Field) :=
  fieldValues.map fun nv =>
    let fieldType := inferType nv.2
    let matchers :=
      match detectorDetect det nv.1 fieldType nv.2 with
      | .error _ => []
      | .ok ms => ms
    (nv.1, { type := fieldType, stats := [], matchers := matchers })

/-- `GenerateWithPatternDetection` (generator.go:22): sample, return an
empty schema on an empty sample, flatten every sampled record into one
accumulator, create the detector (a failure here aborts with the wrapped
configuration error — note this happens after sampling), then analyze the
fields.  The first component counts the `Read` calls issued to the
source. -/
def generateWithPatternDetection (stream : List Record) (samplerConfig : Option Sampler)
    (patternConfig : Option PatternDetectionConfig) : Nat × Except String Schema :=
  let sampleSize := effectiveSampleSize samplerConfig
  let (records, reads) := sampleRecords stream sampleSize
  if records.length = 0 then (reads, .ok { key := "", maxKeySize := 0, fields := [] })
  else
    let fieldValues :=
      records.foldl (fun acc record => collectFieldValues [(Value.vobj record, "")] acc) []
    match createDetector patternConfig with
    | .error e => (reads, .error ("failed to create pattern detector: " ++ e))
    | .ok detector =>
        (reads, .ok { key := "", maxKeySize := 0
                      fields := analyzeFieldsWithPatterns fieldValues detector })

/-! ## Concrete fixtures used by the claim instances -/

/-- Disabled periodic reporting. -/
def cfgDisabled : PeriodicConfig := ⟨false, 0, 0⟩

/-- Source-1 records of the comparator scenario (the repository's own
`TestStreamComparator_Compare` data). -/
def c1rec1 : Record := [("id", .vstr "1"), ("name", .vstr "Alice"), ("age", .vstr "30")]

/-- Shared identical record with key 2. -/
def c1rec2 : Record := [("id", .vstr "2"), ("name", .vstr "Bob"), ("age", .vstr "25")]

/-- Record with key 3, only in source 1. -/
def c1rec3 : Record := [("id", .vstr "3"), ("name", .vstr "Charlie"), ("age", .vstr "35")]

/-- Source-2 variant of key 1, differing only in the age field. -/
def c1rec1b : Record := [("id", .vstr "1"), ("name", .vstr "Alice"), ("age", .vstr "31")]

/-- Record with key 4, only in source 2. -/
def c1rec4 : Record := [("id", .vstr "4"), ("name", .vstr "David"), ("age", .vstr "40")]

/-- The always-succeeding periodic callback (also the model of Go's nil
callback). -/
def okCallback : ComparisonResult → Except String Unit := fun _ => .ok ()

/-- The identity iteration order for key maps. -/
def idOrd : RMap → RMap := fun m => m

/-- The reversing iteration order for key maps (a permutation, hence a
possible Go map iteration order). -/
def revOrd : RMap → RMap := fun m => m.reverse

/-- The identity iteration order for the field-union set. -/
def idFieldOrd : List String → List String := fun l => l

/-- The reversing iteration order for the field-union set (a permutation,
hence a possible Go map iteration order). -/
def revFieldOrd : List String → List String := fun l => l.reverse

/-- First run of the determinism scenario: identity iteration orders. -/
def c3run1 : Except String ComparisonResult :=
  compare "id" cfgDisabled (fun _ => false) okCallback idOrd idFieldOrd [c1rec1, c1rec2] []

/-- Second run of the determinism scenario: same streams, reversed key-map
iteration order. -/
def c3run2 : Except String ComparisonResult :=
  compare "id" cfgDisabled (fun _ => false) okCallback revOrd idFieldOrd [c1rec1, c1rec2] []

/-- Source-2 variant of key 1 differing from `c1rec1` in two fields (name
and age), for the FieldDiff-order part of the determinism scenario. -/
def c3rec1c : Record := [("id", .vstr "1"), ("name", .vstr "Vera"), ("age", .vstr "31")]

/-- Third run: matched key with two differing fields, identity orders. -/
def c3run3 : Except String ComparisonResult :=
  compare "id" cfgDisabled (fun _ => false) okCallback idOrd idFieldOrd [c1rec1] [c3rec1c]

/-- Fourth run: same streams as the third, reversed field-union iteration
order. -/
def c3run4 : Except String ComparisonResult :=
  compare "id" cfgDisabled (fun _ => false) okCallback idOrd revFieldOrd [c1rec1] [c3rec1c]

/-- Extracts the result of a successful comparison run (used to name the
concrete results of fixture runs in closed statements). -/
def exceptResult (r : Except String ComparisonResult) : ComparisonResult :=
  match r with
  | .ok res => res
  | .error _ => default

/-- The record of the flattening scenario:
`{id:1, user:{name:"Jules"}, tags:["x","y"]}`. -/
def c6record : Record :=
  [("id", .vint 1), ("user", .vobj [("name", .vstr "Jules")]),
   ("tags", .varr [.vstr "x", .vstr "y"])]

/-- A one-record stream for the schema-generation error scenario. -/
def c5record : Record := [("id", .vint 1)]

/-- A pattern-detection configuration with an unsupported mode. -/
def c5badMode : PatternDetectionConfig :=
  { enabled := true, mode := "weird", offlineModel := none, onlineAPI := none }

/-- An online-mode configuration with an empty API key. -/
def c5emptyKey : PatternDetectionConfig :=
  { enabled := true, mode := "online", offlineModel := none
    onlineAPI := some { apiKey := "", provider := "", endpoint := "", model := "" } }

/-! # Theorems -/

/-! ## General helper lemmas -/

theorem effectiveSampleSize_pos (samplerConfig : Option Sampler) :
    1 ≤ effectiveSampleSize samplerConfig := by
  match samplerConfig with
  | none => simp [effectiveSampleSize, defaultSampleSize]
  | some c =>
    simp only [effectiveSampleSize]
    split
    · next h => omega
    · simp [defaultSampleSize]

theorem sampleRecords_take (stream : List Record) :
    ∀ n, (sampleRecords stream n).1 = stream.take n
      ∧ (sampleRecords stream n).2 ≤ n := by
  induction stream with
  | nil => intro n; cases n <;> simp [sampleRecords]
  | cons r rest ih =>
    intro n
    cases n with
    | zero => simp [sampleRecords]
    | succ m =>
      obtain ⟨h1, h2⟩ := ih m
      simp only [sampleRecords, List.take_succ_cons]
      exact ⟨by rw [h1], by omega⟩

/-! ## C6: flattening the nested record -/

/-- C6: flattening `{id:1, user:{name:"Jules"}, tags:["x","y"]}` into an
empty accumulator yields exactly the paths `id`, `user`, `user.name`,
`tags`, `tags[]`; `user` maps to the nested record value itself and `tags`
to the sequence value itself; the root record contributes no path (no
entry has the empty path). -/
theorem collectFieldValues_c6 :
    collectFieldValues [(Value.vobj c6record, "")] [] =
      [("id", [Value.vint 1]), ("user", [Value.vobj [("name", Value.vstr "Jules")]]),
       ("tags", [Value.varr [Value.vstr "x", Value.vstr "y"]]),
       ("user.name", [Value.vstr "Jules"]),
       ("tags[]", [Value.vstr "x", Value.vstr "y"])] := by
  simp [c6record, collectFieldValues, appendVal]

/-! ## C4: offline email detection threshold -/

/-- C4 counterexample: on five stringified values of which exactly four
(that is, exactly 80%, so "at least 80%") match the email regex, the
offline detector returns no matcher at all, refuting the claim that the
canonical email regex is returned whenever at least 80% match. -/
theorem offlineDetect_c4_counterexample :
    4 * (["alice@x.com", "bob@y.org", "carol@z.net", "dan@q.com",
          "zzz"].countP emailRegexMatches)
        = 4 * 4
      ∧ 4 * (["alice@x.com", "bob@y.org", "carol@z.net", "dan@q.com", "zzz"] :
          List String).length ≤ 5 * (["alice@x.com", "bob@y.org", "carol@z.net",
          "dan@q.com", "zzz"].countP emailRegexMatches)
      ∧ offlineDetectPatterns "email" "string"
          [.vstr "alice@x.com", .vstr "bob@y.org", .vstr "carol@z.net",
           .vstr "dan@q.com", .vstr "zzz"] = [] := by
  refine ⟨by decide, by decide, by decide⟩

/-- C4 (amended): the offline detector returns the canonical email regex as
the sole matcher whenever strictly more than 80% of the stringified
(non-nil) values match that regex; on the three-email list it returns
exactly the canonical regex matcher, and on the 2/3 list it returns no
matcher. -/
theorem offlineDetect_c4 :
    (∀ (fieldName fieldType : String) (values : List Value),
      gtFourFifths
          (((values.filter (fun v => !isNullV v)).map sprintv).countP emailRegexMatches)
          ((values.filter (fun v => !isNullV v)).map sprintv).length = true →
      offlineDetectPatterns fieldName fieldType values = [Matcher.regex emailPattern])
    ∧ offlineDetectPatterns "email" "string"
        [.vstr "alice@x.com", .vstr "bob@y.org", .vstr "charlie@z.net"]
        = [Matcher.regex emailPattern]
    ∧ offlineDetectPatterns "email" "string"
        [.vstr "alice@x.com", .vstr "not-an-email", .vstr "bob@y.org"] = [] := by
  refine ⟨?_, by decide, by decide⟩
  intro fieldName fieldType values h
  have hvne : values.length ≠ 0 := by
    intro hlen
    rw [List.eq_nil_of_length_eq_zero hlen] at h
    simp [gtFourFifths] at h
  have hsne : ((values.filter (fun v => !isNullV v)).map sprintv).length ≠ 0 := by
    intro hlen
    have hcle := List.countP_le_length (p := emailRegexMatches)
      (l := (values.filter (fun v => !isNullV v)).map sprintv)
    have hc0 : ((values.filter (fun v => !isNullV v)).map sprintv).countP emailRegexMatches
        = 0 := by omega
    rw [hc0, hlen] at h
    simp [gtFourFifths] at h
  have hemail : detectEmailPattern ((values.filter (fun v => !isNullV v)).map sprintv)
      = emailPattern := by
    simp only [detectEmailPattern, h, if_true]
  have hne : emailPattern ≠ "" := by decide
  simp only [offlineDetectPatterns]
  rw [if_neg hvne, if_neg hsne, hemail, if_pos hne]

/-! ## C5: configuration failure happens only after sampling -/

/-- C5 counterexample: with a one-record stream and an unsupported
detection mode, schema generation does fail with the configuration error,
but only after issuing two `Read` calls to the source (one yielding the
record, one hitting end-of-stream) — not before any record is read as the
claim states. -/
theorem generate_c5_counterexample :
    generateWithPatternDetection [c5record] none (some c5badMode)
        = (2, .error "failed to create pattern detector: unsupported pattern detection mode: weird")
      ∧ (generateWithPatternDetection [c5record] none (some c5badMode)).1 ≠ 0 := by
  refine ⟨rfl, by decide⟩

/-- C5 (amended): whenever the detector factory rejects the configuration
(unsupported mode, or online mode with a missing/empty API key) and the
source is non-empty, schema generation fails with the wrapped
configuration error — but only after the sampling phase, having issued at
least one `Read` call to the source.  (With an empty source the sampling
short-circuit returns an empty schema and the configuration error is never
raised.) -/
theorem generate_c5 :
    ∀ (stream : List Record) (samplerConfig : Option Sampler)
      (patternConfig : Option PatternDetectionConfig) (e : String),
      createDetector patternConfig = .error e → stream ≠ [] →
      (generateWithPatternDetection stream samplerConfig patternConfig).2
          = .error ("failed to create pattern detector: " ++ e)
        ∧ 1 ≤ (generateWithPatternDetection stream samplerConfig patternConfig).1 := by
  intro stream samplerConfig patternConfig e hdet hne
  obtain ⟨r, rest, rfl⟩ : ∃ r rest, stream = r :: rest := by
    cases stream with
    | nil => exact absurd rfl hne
    | cons r rest => exact ⟨r, rest, rfl⟩
  obtain ⟨m, hm⟩ : ∃ m, effectiveSampleSize samplerConfig = m + 1 := by
    have := effectiveSampleSize_pos samplerConfig
    exact ⟨effectiveSampleSize samplerConfig - 1, by omega⟩
  simp only [generateWithPatternDetection, hm, sampleRecords, hdet]
  simp

/-- C5 witness: both rejected configurations instantiate the amended
theorem. -/
theorem generate_c5_witness :
    ((generateWithPatternDetection [c5record] none (some c5badMode)).2
        = .error "failed to create pattern detector: unsupported pattern detection mode: weird")
      ∧ ((generateWithPatternDetection [c5record] none (some c5emptyKey)).2
        = .error "failed to create pattern detector: API key is required for online mode") := by
  refine ⟨?_, ?_⟩
  · exact (generate_c5 [c5record] none (some c5badMode)
      "unsupported pattern detection mode: weird" rfl (List.cons_ne_nil _ _)).1
  · exact (generate_c5 [c5record] none (some c5emptyKey)
      "API key is required for online mode" rfl (List.cons_ne_nil _ _)).1

/-! ## C8: bounded sampling, exhaustion is not an error -/

/-- C8: schema generation samples exactly the `sampleSize`-prefix of the
stream (so at most `sampleSize` records, stopping early on exhaustion
without an error), issues at most `sampleSize` `Read` calls, the default
sample size is 1000, and an empty stream yields a schema with no fields
and no error. -/
theorem generate_c8 :
    ∀ (stream : List Record) (samplerConfig : Option Sampler)
      (patternConfig : Option PatternDetectionConfig),
      (sampleRecords stream (effectiveSampleSize samplerConfig)).1
          = stream.take (effectiveSampleSize samplerConfig)
      ∧ (sampleRecords stream (effectiveSampleSize samplerConfig)).2
          ≤ effectiveSampleSize samplerConfig
      ∧ effectiveSampleSize none = 1000
      ∧ (stream = [] →
          (generateWithPatternDetection stream samplerConfig patternConfig).2
            = .ok { key := "", maxKeySize := 0, fields := [] }) := by
  intro stream samplerConfig patternConfig
  refine ⟨(sampleRecords_take stream _).1, (sampleRecords_take stream _).2, rfl, ?_⟩
  rintro rfl
  obtain ⟨m, hm⟩ : ∃ m, effectiveSampleSize samplerConfig = m + 1 := by
    have := effectiveSampleSize_pos samplerConfig
    exact ⟨effectiveSampleSize samplerConfig - 1, by omega⟩
  simp [generateWithPatternDetection, hm, sampleRecords]

/-- C8 witness: instantiated on an empty stream with the default sampler
and no pattern configuration. -/
theorem generate_c8_witness :
    (generateWithPatternDetection [] none none).2
      = .ok { key := "", maxKeySize := 0, fields := [] } :=
  (generate_c8 [] none none).2.2.2 rfl

/-! ## Comparator helper lemmas -/

theorem findRec_isSome_iff (m : RMap) (k : String) :
    (findRec m k).isSome = true ↔ k ∈ m.map Prod.fst := by
  induction m with
  | nil => simp [findRec]
  | cons kv rest ih =>
    obtain ⟨k', r⟩ := kv
    by_cases hk : k' = k
    · subst hk; simp [findRec]
    · simp only [findRec, if_neg hk, List.map_cons, List.mem_cons, ih]
      constructor
      · exact Or.inr
      · rintro (h | h)
        · exact absurd h.symm hk
        · exact h

theorem keysOnlyIn_eq (m other : RMap) :
    keysOnlyIn m other
      = m.filterMap (fun kv => if (findRec other kv.1).isSome then none else some kv.1) := by
  induction m with
  | nil => rfl
  | cons kv rest ih =>
    obtain ⟨k, r⟩ := kv
    by_cases h : (findRec other k).isSome
    · simp [keysOnlyIn, h, ih]
    · simp [keysOnlyIn, h, ih]

theorem matchLoop_fst (fo : List String → List String) (m1 m2 : RMap) :
    (matchLoop fo m1 m2).1 = m1.countP (fun kv => (findRec m2 kv.1).isSome) := by
  induction m1 with
  | nil => rfl
  | cons kv rest ih =>
    obtain ⟨k, r1⟩ := kv
    simp only [matchLoop, List.countP_cons]
    cases hfr : findRec m2 k with
    | none => simp [hfr, ih]
    | some r2 =>
      by_cases hd : (compareRecords fo r1 r2).isEmpty <;> simp [hfr, hd, ih]

theorem matchLoop_snd (fo : List String → List String) (m1 m2 : RMap) :
    (matchLoop fo m1 m2).2.1
      = m1.countP (fun kv =>
          (findRec m2 kv.1).elim false (fun r2 => (compareRecords fo kv.2 r2).isEmpty)) := by
  induction m1 with
  | nil => rfl
  | cons kv rest ih =>
    obtain ⟨k, r1⟩ := kv
    simp only [matchLoop, List.countP_cons]
    cases hfr : findRec m2 k with
    | none => simp [hfr, ih]
    | some r2 =>
      by_cases hd : (compareRecords fo r1 r2).isEmpty <;> simp [hfr, hd, ih]

theorem matchLoop_thd (fo : List String → List String) (m1 m2 : RMap) :
    (matchLoop fo m1 m2).2.2
      = m1.filterMap (fun kv =>
          (findRec m2 kv.1).elim none (fun r2 =>
            if (compareRecords fo kv.2 r2).isEmpty then none
            else some (kv.1, compareRecords fo kv.2 r2))) := by
  induction m1 with
  | nil => rfl
  | cons kv rest ih =>
    obtain ⟨k, r1⟩ := kv
    simp only [matchLoop, List.filterMap_cons]
    cases hfr : findRec m2 k with
    | none => simp [hfr, ih]
    | some r2 =>
      by_cases hd : (compareRecords fo r1 r2).isEmpty <;> simp [hfr, hd, ih]

/-- Every key of a `ValueDiffs` entry is a key present in both maps. -/
theorem valueDiffs_mem (fo : List String → List String) (m1 m2 : RMap)
    (kd : String × List FieldDiff)
    (h : kd ∈ (matchLoop fo m1 m2).2.2) :
    (findRec m1 kd.1).isSome = true ∧ (findRec m2 kd.1).isSome = true := by
  rw [matchLoop_thd] at h
  rw [List.mem_filterMap] at h
  obtain ⟨kv, hmem, hf⟩ := h
  cases hfr : findRec m2 kv.1 with
  | none => rw [hfr] at hf; simp at hf
  | some r2 =>
    rw [hfr] at hf
    simp only [Option.elim_some] at hf
    by_cases hd : (compareRecords fo kv.2 r2).isEmpty
    · rw [if_pos hd] at hf; simp at hf
    · rw [if_neg hd] at hf
      obtain rfl : (kv.1, compareRecords fo kv.2 r2) = kd := Option.some.inj hf
      refine ⟨?_, ?_⟩
      · rw [show (kv.1, compareRecords fo kv.2 r2).1 = kv.1 from rfl, findRec_isSome_iff]
        exact List.mem_map_of_mem Prod.fst hmem
      · show (findRec m2 kv.1).isSome = true
        rw [hfr]; rfl

/-! ## C2: result invariants -/

/-- C2: for every field-union iteration order, every pair of key maps and
every result generated from them (periodic or final), every key in
`ValueDiffs` is present in both maps, `MatchingKeys` counts exactly the
entries of map 1 whose key is present in map 2, `IdenticalRows` counts
exactly those of them whose records compare without differences (hence
every key counted is present in both maps, and
`IdenticalRows ≤ MatchingKeys`), and each keys-only list is disjoint from
the key set of `ValueDiffs`. -/
theorem generateResult_c2 (fo : List String → List String) (m1 m2 : RMap)
    (rp c1 c2 : Nat) (b : Bool) :
    (∀ kd ∈ (generateResult fo m1 m2 rp c1 c2 b).valueDiffs,
        (findRec m1 kd.1).isSome = true ∧ (findRec m2 kd.1).isSome = true)
    ∧ (generateResult fo m1 m2 rp c1 c2 b).matchingKeys
        = m1.countP (fun kv => (findRec m2 kv.1).isSome)
    ∧ (generateResult fo m1 m2 rp c1 c2 b).identicalRows
        = m1.countP (fun kv =>
            (findRec m2 kv.1).elim false (fun r2 => (compareRecords fo kv.2 r2).isEmpty))
    ∧ (generateResult fo m1 m2 rp c1 c2 b).identicalRows
        ≤ (generateResult fo m1 m2 rp c1 c2 b).matchingKeys
    ∧ (∀ k ∈ (generateResult fo m1 m2 rp c1 c2 b).keysOnlyInSource1,
        k ∉ ((generateResult fo m1 m2 rp c1 c2 b).valueDiffs.map Prod.fst))
    ∧ (∀ k ∈ (generateResult fo m1 m2 rp c1 c2 b).keysOnlyInSource2,
        k ∉ ((generateResult fo m1 m2 rp c1 c2 b).valueDiffs.map Prod.fst)) := by
  refine ⟨fun kd h => valueDiffs_mem fo m1 m2 kd h, matchLoop_fst fo m1 m2,
    matchLoop_snd fo m1 m2, ?_, ?_, ?_⟩
  · show (matchLoop fo m1 m2).2.1 ≤ (matchLoop fo m1 m2).1
    rw [matchLoop_fst, matchLoop_snd]
    refine List.countP_mono_left fun kv _ h => ?_
    cases hfr : findRec m2 kv.1 with
    | none => rw [hfr] at h; simp at h
    | some r2 => rfl
  · intro k hk hmem
    rw [List.mem_map] at hmem
    obtain ⟨kd, hkd, hfst⟩ := hmem
    have h2 : (findRec m2 k).isSome = true := by
      have := (valueDiffs_mem fo m1 m2 kd hkd).2
      rwa [hfst] at this
    show False
    have hko : k ∈ keysOnlyIn m1 m2 := hk
    rw [keysOnlyIn_eq, List.mem_filterMap] at hko
    obtain ⟨kv, _, hf⟩ := hko
    by_cases hs : (findRec m2 kv.1).isSome
    · rw [if_pos hs] at hf; exact absurd hf (by simp)
    · rw [if_neg hs] at hf
      have : kv.1 = k := by simpa using hf
      rw [this] at hs
      exact hs h2
  · intro k hk hmem
    rw [List.mem_map] at hmem
    obtain ⟨kd, hkd, hfst⟩ := hmem
    have h1 : (findRec m1 k).isSome = true := by
      have := (valueDiffs_mem fo m1 m2 kd hkd).1
      rwa [hfst] at this
    show False
    have hko : k ∈ keysOnlyIn m2 m1 := hk
    rw [keysOnlyIn_eq, List.mem_filterMap] at hko
    obtain ⟨kv, _, hf⟩ := hko
    by_cases hs : (findRec m1 kv.1).isSome
    · rw [if_pos hs] at hf; exact absurd hf (by simp)
    · rw [if_neg hs] at hf
      have : kv.1 = k := by simpa using hf
      rw [this] at hs
      exact hs h1

/-- C2 witness: the invariants instantiated on concrete one-entry maps in
which the shared key 1 has differing records. -/
theorem generateResult_c2_witness :
    (generateResult idFieldOrd [("1", c1rec1)] [("1", c1rec1b)] 2 1 1 false).matchingKeys = 1
    ∧ (findRec [("1", c1rec1)] "1").isSome = true
    ∧ (findRec [("1", c1rec1b)] "1").isSome = true := by
  have h := generateResult_c2 idFieldOrd [("1", c1rec1)] [("1", c1rec1b)] 2 1 1 false
  have hmem : ("1", compareRecords idFieldOrd c1rec1 c1rec1b)
      ∈ (generateResult idFieldOrd [("1", c1rec1)] [("1", c1rec1b)] 2 1 1 false).valueDiffs := by
    show ("1", compareRecords idFieldOrd c1rec1 c1rec1b)
      ∈ [("1", compareRecords idFieldOrd c1rec1 c1rec1b)]
    exact List.mem_cons_self _ _
  refine ⟨?_, ?_, ?_⟩
  · rw [h.2.1]; decide
  · exact (h.1 ("1", compareRecords idFieldOrd c1rec1 c1rec1b) hmem).1
  · exact (h.1 ("1", compareRecords idFieldOrd c1rec1 c1rec1b) hmem).2

/-! ## Compare-loop helper lemmas -/

/-- What a successful `processOne` step did to the state: the counters are
bumped, the current source's map receives the record through `storeByKey`,
and the other fields are those of the ingested state (with
`lastReportRecords` possibly reset by a successful callback). -/
theorem processOne_ok_spec (keyField : String) (cfg : PeriodicConfig)
    (timeTrig : Nat → Bool) (onPeriodicDiff : ComparisonResult → Except String Unit)
    (iterOrd : RMap → RMap) (fieldOrd : List String → List String)
    (fromSource1 : Bool) (record : Record) (st st' : CompState)
    (h : processOne keyField cfg timeTrig onPeriodicDiff iterOrd fieldOrd fromSource1 record st
        = .ok st') :
    st'.rp = st.rp + 1
    ∧ st'.c1 = (if fromSource1 then st.c1 + 1 else st.c1)
    ∧ st'.c2 = (if fromSource1 then st.c2 else st.c2 + 1)
    ∧ st'.m1 = (if fromSource1 then storeByKey keyField record st.m1 else st.m1)
    ∧ st'.m2 = (if fromSource1 then st.m2 else storeByKey keyField record st.m2) := by
  simp only [processOne] at h
  by_cases htrig : shouldReportPeriodic cfg
      (timeTrig (ingestRecord keyField fromSource1 record st).rp)
      (ingestRecord keyField fromSource1 record st).rp
      (ingestRecord keyField fromSource1 record st).lrr
  · rw [if_pos htrig] at h
    cases hcb : onPeriodicDiff (generatePeriodicResult fieldOrd
        (iterOrd (ingestRecord keyField fromSource1 record st).m1)
        (iterOrd (ingestRecord keyField fromSource1 record st).m2)
        (ingestRecord keyField fromSource1 record st).rp
        (ingestRecord keyField fromSource1 record st).c1
        (ingestRecord keyField fromSource1 record st).c2) with
    | error e => rw [hcb] at h; exact absurd h (by simp)
    | ok u =>
      rw [hcb] at h
      obtain rfl := Except.ok.inj h
      exact ⟨rfl, rfl, rfl, rfl, rfl⟩
  · rw [if_neg htrig] at h
    obtain rfl := Except.ok.inj h
    exact ⟨rfl, rfl, rfl, rfl, rfl⟩

/-- With an empty key field every record leaves both maps unchanged and only
bumps the counters, across a whole phase. -/
theorem comparePhase_emptyKey (cfg : PeriodicConfig) (timeTrig : Nat → Bool)
    (onPeriodicDiff : ComparisonResult → Except String Unit) (iterOrd : RMap → RMap)
    (fieldOrd : List String → List String) (fromSource1 : Bool) :
    ∀ (rs : List Record) (st st' : CompState),
      comparePhase "" cfg timeTrig onPeriodicDiff iterOrd fieldOrd fromSource1 rs st
          = .ok st' →
      st'.m1 = st.m1 ∧ st'.m2 = st.m2 ∧ st'.rp = st.rp + rs.length
      ∧ st'.c1 = st.c1 + (if fromSource1 then rs.length else 0)
      ∧ st'.c2 = st.c2 + (if fromSource1 then 0 else rs.length) := by
  intro rs
  induction rs with
  | nil =>
    intro st st' h
    obtain rfl := Except.ok.inj h
    cases fromSource1 <;> simp
  | cons r rest ih =>
    intro st st' h
    simp only [comparePhase] at h
    cases hp : processOne "" cfg timeTrig onPeriodicDiff iterOrd fieldOrd fromSource1 r st with
    | error e => rw [hp] at h; exact absurd h (by simp)
    | ok stm =>
      rw [hp] at h
      obtain ⟨hrp, hc1, hc2, hm1, hm2⟩ := processOne_ok_spec _ _ _ _ _ _ _ _ _ _ hp
      have hkey : getRecordKey "" r = "" := rfl
      have hstore : storeByKey "" r st.m1 = st.m1 := by simp [storeByKey, hkey]
      have hstore2 : storeByKey "" r st.m2 = st.m2 := by simp [storeByKey, hkey]
      obtain ⟨i1, i2, i3, i4, i5⟩ := ih stm st' h
      rw [hstore] at hm1
      rw [hstore2] at hm2
      refine ⟨?_, ?_, ?_, ?_, ?_⟩
      · rw [i1, hm1]; cases fromSource1 <;> simp
      · rw [i2, hm2]; cases fromSource1 <;> simp
      · rw [i3, hrp]; simp; omega
      · rw [i4, hc1]; cases fromSource1 <;> (simp; try omega)
      · rw [i5, hc2]; cases fromSource1 <;> (simp; try omega)

/-! ## C9: callback failure aborts; counters reset only on success -/

/-- C9: (i) a failing per-record step aborts the whole phase with that
error; (ii)/(iii) a failing phase makes `Compare` return that error — no
final result is produced; (iv) when the periodic trigger fires and the
callback returns an error, the step fails with the wrapped callback error;
(v) `lastReportRecords` changes only when the trigger fired and the
callback succeeded, and then it is reset to the current
records-processed count. -/
theorem compare_c9 (keyField : String) (cfg : PeriodicConfig) (timeTrig : Nat → Bool)
    (onPeriodicDiff : ComparisonResult → Except String Unit) (iterOrd : RMap → RMap)
    (fieldOrd : List String → List String)
    (fromSource1 : Bool) (record : Record) (rest : List Record) (st st' : CompState)
    (e : String) (source1 source2 : List Record) (st1 : CompState) :
    (processOne keyField cfg timeTrig onPeriodicDiff iterOrd fieldOrd fromSource1 record st
        = .error e →
      comparePhase keyField cfg timeTrig onPeriodicDiff iterOrd fieldOrd fromSource1
        (record :: rest) st = .error e)
    ∧ (comparePhase keyField cfg timeTrig onPeriodicDiff iterOrd fieldOrd true source1
          initState = .error e →
      compare keyField cfg timeTrig onPeriodicDiff iterOrd fieldOrd source1 source2
        = .error e)
    ∧ (comparePhase keyField cfg timeTrig onPeriodicDiff iterOrd fieldOrd true source1
          initState = .ok st1 →
      comparePhase keyField cfg timeTrig onPeriodicDiff iterOrd fieldOrd false source2 st1
        = .error e →
      compare keyField cfg timeTrig onPeriodicDiff iterOrd fieldOrd source1 source2
        = .error e)
    ∧ (shouldReportPeriodic cfg
          (timeTrig (ingestRecord keyField fromSource1 record st).rp)
          (ingestRecord keyField fromSource1 record st).rp
          (ingestRecord keyField fromSource1 record st).lrr = true →
      onPeriodicDiff (generatePeriodicResult fieldOrd
          (iterOrd (ingestRecord keyField fromSource1 record st).m1)
          (iterOrd (ingestRecord keyField fromSource1 record st).m2)
          (ingestRecord keyField fromSource1 record st).rp
          (ingestRecord keyField fromSource1 record st).c1
          (ingestRecord keyField fromSource1 record st).c2) = .error e →
      processOne keyField cfg timeTrig onPeriodicDiff iterOrd fieldOrd fromSource1 record st
        = .error ("error in periodic diff callback: " ++ e))
    ∧ (processOne keyField cfg timeTrig onPeriodicDiff iterOrd fieldOrd fromSource1 record st
        = .ok st' →
      st'.lrr ≠ st.lrr →
      shouldReportPeriodic cfg
          (timeTrig (ingestRecord keyField fromSource1 record st).rp)
          (ingestRecord keyField fromSource1 record st).rp
          (ingestRecord keyField fromSource1 record st).lrr = true
        ∧ (∃ u, onPeriodicDiff (generatePeriodicResult fieldOrd
            (iterOrd (ingestRecord keyField fromSource1 record st).m1)
            (iterOrd (ingestRecord keyField fromSource1 record st).m2)
            (ingestRecord keyField fromSource1 record st).rp
            (ingestRecord keyField fromSource1 record st).c1
            (ingestRecord keyField fromSource1 record st).c2) = .ok u)
        ∧ st'.lrr = (ingestRecord keyField fromSource1 record st).rp) := by
  refine ⟨?_, ?_, ?_, ?_, ?_⟩
  · intro h
    simp only [comparePhase, h]
  · intro h
    simp only [compare, h]
  · intro h1 h2
    simp only [compare, h1, h2]
  · intro htrig hcb
    simp only [processOne]
    rw [if_pos htrig, hcb]
  · intro h hne
    simp only [processOne] at h
    by_cases htrig : shouldReportPeriodic cfg
        (timeTrig (ingestRecord keyField fromSource1 record st).rp)
        (ingestRecord keyField fromSource1 record st).rp
        (ingestRecord keyField fromSource1 record st).lrr
    · rw [if_pos htrig] at h
      cases hcb : onPeriodicDiff (generatePeriodicResult fieldOrd
          (iterOrd (ingestRecord keyField fromSource1 record st).m1)
          (iterOrd (ingestRecord keyField fromSource1 record st).m2)
          (ingestRecord keyField fromSource1 record st).rp
          (ingestRecord keyField fromSource1 record st).c1
          (ingestRecord keyField fromSource1 record st).c2) with
      | error e' => rw [hcb] at h; exact absurd h (by simp)
      | ok u =>
        rw [hcb] at h
        obtain rfl := Except.ok.inj h
        exact ⟨htrig, ⟨u, rfl⟩, rfl⟩
    · rw [if_neg htrig] at h
      obtain rfl := Except.ok.inj h
      exact absurd rfl hne

/-- C9 witness: with record-interval 1 and an always-failing callback, the
whole comparison aborts with the wrapped callback error. -/
theorem compare_c9_witness :
    compare "id" ⟨true, 0, 1⟩ (fun _ => false) (fun _ => .error "boom") idOrd idFieldOrd
      [c1rec1] [] = .error "error in periodic diff callback: boom" :=
  (compare_c9 "id" ⟨true, 0, 1⟩ (fun _ => false) (fun _ => .error "boom") idOrd idFieldOrd
    true c1rec1 [] initState initState "error in periodic diff callback: boom"
    [c1rec1] [] initState).2.1 rfl

/-! ## C10: empty keys are counted but never stored -/

/-- C10: a record whose extracted key is empty (empty key field name,
missing key field, or empty stringified value) is never stored in either
map, while the per-source counter and the records-processed counter are
still incremented; consequently, with an empty key field name the final
result has zero matching keys, zero identical rows, empty value diffs and
empty keys-only lists, while the counters equal the stream lengths. -/
theorem compare_c10 :
    (∀ (keyField : String) (record : Record) (m : RMap),
      getRecordKey keyField record = "" → storeByKey keyField record m = m)
    ∧ (∀ (keyField : String) (cfg : PeriodicConfig) (timeTrig : Nat → Bool)
        (onPeriodicDiff : ComparisonResult → Except String Unit) (iterOrd : RMap → RMap)
        (fieldOrd : List String → List String)
        (fromSource1 : Bool) (record : Record) (st st' : CompState),
        processOne keyField cfg timeTrig onPeriodicDiff iterOrd fieldOrd fromSource1 record st
            = .ok st' →
          st'.rp = st.rp + 1
          ∧ st'.c1 = (if fromSource1 then st.c1 + 1 else st.c1)
          ∧ st'.c2 = (if fromSource1 then st.c2 else st.c2 + 1)
          ∧ (getRecordKey keyField record = "" → st'.m1 = st.m1 ∧ st'.m2 = st.m2))
    ∧ (∀ (cfg : PeriodicConfig) (timeTrig : Nat → Bool)
        (onPeriodicDiff : ComparisonResult → Except String Unit) (iterOrd : RMap → RMap)
        (fieldOrd : List String → List String),
        (∀ m, (iterOrd m).Perm m) →
        ∀ (source1 source2 : List Record) (res : ComparisonResult),
        compare "" cfg timeTrig onPeriodicDiff iterOrd fieldOrd source1 source2 = .ok res →
          res.matchingKeys = 0 ∧ res.identicalRows = 0 ∧ res.valueDiffs = []
          ∧ res.keysOnlyInSource1 = [] ∧ res.keysOnlyInSource2 = []
          ∧ res.recordsProcessed = source1.length + source2.length
          ∧ res.source1Records = source1.length
          ∧ res.source2Records = source2.length) := by
  refine ⟨?_, ?_, ?_⟩
  · intro keyField record m h
    simp [storeByKey, h]
  · intro keyField cfg timeTrig onPeriodicDiff iterOrd fieldOrd fromSource1 record st st' h
    obtain ⟨hrp, hc1, hc2, hm1, hm2⟩ := processOne_ok_spec _ _ _ _ _ _ _ _ _ _ h
    refine ⟨hrp, hc1, hc2, fun hkey => ?_⟩
    have hstore1 : storeByKey keyField record st.m1 = st.m1 := by simp [storeByKey, hkey]
    have hstore2 : storeByKey keyField record st.m2 = st.m2 := by simp [storeByKey, hkey]
    rw [hstore1] at hm1
    rw [hstore2] at hm2
    constructor
    · rw [hm1]; cases fromSource1 <;> simp
    · rw [hm2]; cases fromSource1 <;> simp
  · intro cfg timeTrig onPeriodicDiff iterOrd fieldOrd hord source1 source2 res h
    simp only [compare] at h
    cases hp1 : comparePhase "" cfg timeTrig onPeriodicDiff iterOrd fieldOrd true source1
        initState with
    | error e => rw [hp1] at h; simp at h
    | ok st1 =>
      rw [hp1] at h
      dsimp only at h
      cases hp2 : comparePhase "" cfg timeTrig onPeriodicDiff iterOrd fieldOrd false source2
          st1 with
      | error e => rw [hp2] at h; simp at h
      | ok st2 =>
        rw [hp2] at h
        dsimp only at h
        obtain ⟨a1, a2, a3, a4, a5⟩ := comparePhase_emptyKey _ _ _ _ _ _ _ _ _ hp1
        obtain ⟨b1, b2, b3, b4, b5⟩ := comparePhase_emptyKey _ _ _ _ _ _ _ _ _ hp2
        have hm1 : st2.m1 = [] := by rw [b1, a1]; rfl
        have hm2 : st2.m2 = [] := by rw [b2, a2]; rfl
        have hord1 : iterOrd st2.m1 = [] := by
          rw [hm1]; exact (hord []).eq_nil
        have hord2 : iterOrd st2.m2 = [] := by
          rw [hm2]; exact (hord []).eq_nil
        obtain rfl := Except.ok.inj h
        simp only [generateFinalResult, generateResult, hord1, hord2]
        refine ⟨rfl, rfl, rfl, rfl, rfl, ?_, ?_, ?_⟩
        · show st2.rp = source1.length + source2.length
          rw [b3, a3]; simp [initState]
        · show st2.c1 = source1.length
          rw [b4, a4]; simp [initState]
        · show st2.c2 = source2.length
          rw [b5, a5]; simp [initState]

/-- C10 witness: an empty key field leaves the map untouched, and a
concrete two-stream run with an empty key field produces the all-empty
final statistics. -/
theorem compare_c10_witness :
    storeByKey "" c1rec1 [] = []
    ∧ (exceptResult (compare "" cfgDisabled (fun _ => false) okCallback idOrd idFieldOrd
        [c1rec1] [c1rec4])).matchingKeys = 0
    ∧ (exceptResult (compare "" cfgDisabled (fun _ => false) okCallback idOrd idFieldOrd
        [c1rec1] [c1rec4])).recordsProcessed = 2 := by
  have h3 := compare_c10.2.2 cfgDisabled (fun _ => false) okCallback idOrd idFieldOrd
    (fun m => List.Perm.refl m) [c1rec1] [c1rec4]
    (exceptResult (compare "" cfgDisabled (fun _ => false) okCallback idOrd idFieldOrd
      [c1rec1] [c1rec4])) rfl
  exact ⟨compare_c10.1 "" c1rec1 [] rfl, h3.1, h3.2.2.2.2.2.1⟩

/-! ## Permutation stability of result generation

Go map iteration order is unspecified and randomized per range statement;
the association-list order in the embedding is therefore a parameter, and
these lemmas characterize exactly what is and is not independent of it. -/

theorem findRec_perm {m m' : RMap} (h : m.Perm m') (nd : (m.map Prod.fst).Nodup) :
    ∀ k, findRec m k = findRec m' k := by
  induction h with
  | nil => intro _; rfl
  | cons x h ih =>
    intro k
    obtain ⟨x1, x2⟩ := x
    simp only [findRec]
    by_cases hx : x1 = k
    · simp [hx]
    · simp only [if_neg hx]
      refine ih ?_ k
      simp only [List.map_cons, List.nodup_cons] at nd
      exact nd.2
  | swap x y l =>
    intro k
    obtain ⟨x1, x2⟩ := x
    obtain ⟨y1, y2⟩ := y
    have hxy : y1 ≠ x1 := by
      simp only [List.map_cons, List.nodup_cons, List.mem_cons] at nd
      exact fun hEq => nd.1 (Or.inl hEq)
    simp only [findRec]
    by_cases h1 : y1 = k <;> by_cases h2 : x1 = k
    · exact absurd (h1.trans h2.symm) hxy
    · simp [h1, h2]
    · simp [h1, h2]
    · simp [h1, h2]
  | trans h1 h2 ih1 ih2 =>
    intro k
    rw [ih1 nd k]
    refine ih2 ?_ k
    exact ((h1.map Prod.fst).nodup_iff).mp nd

/-- `compareRecords` under two permutation-valid field-iteration orders
yields the same `FieldDiff` multiset. -/
theorem compareRecords_perm (fo fo' : List String → List String)
    (hfo : ∀ l, (fo l).Perm l) (hfo' : ∀ l, (fo' l).Perm l) (r1 r2 : Record) :
    (compareRecords fo r1 r2).Perm (compareRecords fo' r1 r2) :=
  ((hfo _).trans (hfo' _).symm).filterMap _

/-- Lists that are permutations of one another are empty together. -/
theorem perm_isEmpty_eq {α : Type} {l l' : List α} (h : l.Perm l') :
    l.isEmpty = l'.isEmpty := by
  have hl := h.length_eq
  cases l with
  | nil =>
    cases l' with
    | nil => rfl
    | cons b t' => simp at hl
  | cons a t =>
    cases l' with
    | nil => simp at hl
    | cons b t' => rfl

/-- In a map with pairwise-distinct keys, looking up the key of an entry
returns that entry's record. -/
theorem findRec_eq_of_mem (m : RMap) (kv : String × Record) (hmem : kv ∈ m)
    (nd : (m.map Prod.fst).Nodup) : findRec m kv.1 = some kv.2 := by
  induction m with
  | nil => cases hmem
  | cons hd rest ih =>
    obtain ⟨k', r'⟩ := hd
    simp only [List.map_cons, List.nodup_cons] at nd
    rcases List.mem_cons.mp hmem with hEq | hmem'
    · subst hEq
      simp [findRec]
    · have hne : k' ≠ kv.1 := by
        intro hEq
        exact nd.1 (hEq ▸ List.mem_map_of_mem Prod.fst hmem')
      simp only [findRec, if_neg hne]
      exact ih hmem' nd.2

/-- A `ValueDiffs` entry of the match loop is exactly the `compareRecords`
output of the two records stored under its key (when map 1 has distinct
keys). -/
theorem valueDiffs_entry (fo : List String → List String) (m1 m2 : RMap)
    (nd1 : (m1.map Prod.fst).Nodup) (k : String) (d : List FieldDiff)
    (h : (k, d) ∈ (matchLoop fo m1 m2).2.2) :
    ∃ r1 r2, findRec m1 k = some r1 ∧ findRec m2 k = some r2
      ∧ d = compareRecords fo r1 r2 := by
  rw [matchLoop_thd, List.mem_filterMap] at h
  obtain ⟨kv, hmem, hf⟩ := h
  cases hfr : findRec m2 kv.1 with
  | none => rw [hfr] at hf; simp at hf
  | some r2 =>
    rw [hfr] at hf
    simp only [Option.elim_some] at hf
    by_cases hd : (compareRecords fo kv.2 r2).isEmpty
    · rw [if_pos hd] at hf; simp at hf
    · rw [if_neg hd] at hf
      have hpair := Option.some.inj hf
      have hk : kv.1 = k := congrArg Prod.fst hpair
      have hdEq : compareRecords fo kv.2 r2 = d := congrArg Prod.snd hpair
      refine ⟨kv.2, r2, ?_, ?_, hdEq.symm⟩
      · rw [← hk]
        exact findRec_eq_of_mem m1 kv hmem nd1
      · rw [← hk]
        exact hfr

/-- All observable components of `generateResult` are stable under
reordering both key maps and the field-union set: the numeric fields are
equal, the keys-only lists and the `ValueDiffs` key list are permutations
of one another, and the `FieldDiff` lists stored under a common key are
permutations of one another. -/
theorem generateResult_perm (fo fo' : List String → List String)
    (hfo : ∀ l, (fo l).Perm l) (hfo' : ∀ l, (fo' l).Perm l)
    (m1 m1' m2 m2' : RMap) (h1 : m1.Perm m1') (h2 : m2.Perm m2')
    (nd1 : (m1.map Prod.fst).Nodup) (nd2 : (m2.map Prod.fst).Nodup)
    (rp c1 c2 : Nat) (b : Bool) :
    (generateResult fo m1 m2 rp c1 c2 b).matchingKeys
        = (generateResult fo' m1' m2' rp c1 c2 b).matchingKeys
    ∧ (generateResult fo m1 m2 rp c1 c2 b).identicalRows
        = (generateResult fo' m1' m2' rp c1 c2 b).identicalRows
    ∧ (generateResult fo m1 m2 rp c1 c2 b).keysOnlyInSource1.Perm
        (generateResult fo' m1' m2' rp c1 c2 b).keysOnlyInSource1
    ∧ (generateResult fo m1 m2 rp c1 c2 b).keysOnlyInSource2.Perm
        (generateResult fo' m1' m2' rp c1 c2 b).keysOnlyInSource2
    ∧ ((generateResult fo m1 m2 rp c1 c2 b).valueDiffs.map Prod.fst).Perm
        ((generateResult fo' m1' m2' rp c1 c2 b).valueDiffs.map Prod.fst)
    ∧ (∀ (k : String) (d d' : List FieldDiff),
        (k, d) ∈ (generateResult fo m1 m2 rp c1 c2 b).valueDiffs →
        (k, d') ∈ (generateResult fo' m1' m2' rp c1 c2 b).valueDiffs →
        d.Perm d') := by
  have hf2 : ∀ k, findRec m2 k = findRec m2' k := findRec_perm h2 nd2
  have hf1 : ∀ k, findRec m1 k = findRec m1' k := findRec_perm h1 nd1
  refine ⟨?_, ?_, ?_, ?_, ?_, ?_⟩
  · show (matchLoop fo m1 m2).1 = (matchLoop fo' m1' m2').1
    rw [matchLoop_fst, matchLoop_fst]
    have hp : (fun kv : String × Record => (findRec m2 kv.1).isSome)
        = (fun kv : String × Record => (findRec m2' kv.1).isSome) :=
      funext fun kv => by rw [hf2]
    rw [hp]
    exact h1.countP_eq _
  · show (matchLoop fo m1 m2).2.1 = (matchLoop fo' m1' m2').2.1
    rw [matchLoop_snd, matchLoop_snd]
    have hp : (fun kv : String × Record =>
          (findRec m2 kv.1).elim false (fun r2 => (compareRecords fo kv.2 r2).isEmpty))
        = (fun kv : String × Record =>
          (findRec m2' kv.1).elim false (fun r2 => (compareRecords fo' kv.2 r2).isEmpty)) := by
      funext kv
      rw [← hf2]
      cases findRec m2 kv.1 with
      | none => rfl
      | some r2 =>
        simp only [Option.elim_some]
        exact perm_isEmpty_eq (compareRecords_perm fo fo' hfo hfo' kv.2 r2)
    rw [hp]
    exact h1.countP_eq _
  · show (keysOnlyIn m1 m2).Perm (keysOnlyIn m1' m2')
    rw [keysOnlyIn_eq, keysOnlyIn_eq]
    have hp : (fun kv : String × Record =>
          if (findRec m2 kv.1).isSome then none else some kv.1)
        = (fun kv : String × Record =>
          if (findRec m2' kv.1).isSome then none else some kv.1) :=
      funext fun kv => by rw [hf2]
    rw [hp]
    exact h1.filterMap _
  · show (keysOnlyIn m2 m1).Perm (keysOnlyIn m2' m1')
    rw [keysOnlyIn_eq, keysOnlyIn_eq]
    have hp : (fun kv : String × Record =>
          if (findRec m1 kv.1).isSome then none else some kv.1)
        = (fun kv : String × Record =>
          if (findRec m1' kv.1).isSome then none else some kv.1) :=
      funext fun kv => by rw [hf1]
    rw [hp]
    exact h2.filterMap _
  · show ((matchLoop fo m1 m2).2.2.map Prod.fst).Perm
      ((matchLoop fo' m1' m2').2.2.map Prod.fst)
    rw [matchLoop_thd, matchLoop_thd, List.map_filterMap, List.map_filterMap]
    have hp : (fun kv : String × Record =>
          ((findRec m2 kv.1).elim none (fun r2 =>
            if (compareRecords fo kv.2 r2).isEmpty then none
            else some (kv.1, compareRecords fo kv.2 r2))).map Prod.fst)
        = (fun kv : String × Record =>
          ((findRec m2' kv.1).elim none (fun r2 =>
            if (compareRecords fo' kv.2 r2).isEmpty then none
            else some (kv.1, compareRecords fo' kv.2 r2))).map Prod.fst) := by
      funext kv
      rw [← hf2]
      cases findRec m2 kv.1 with
      | none => rfl
      | some r2 =>
        simp only [Option.elim_some]
        rw [perm_isEmpty_eq (compareRecords_perm fo fo' hfo hfo' kv.2 r2)]
        by_cases hd : (compareRecords fo' kv.2 r2).isEmpty
        · rw [if_pos hd, if_pos hd]
        · rw [if_neg hd, if_neg hd]
          rfl
    rw [hp]
    exact h1.filterMap _
  · intro k d d' hd hd'
    have nd1' : (m1'.map Prod.fst).Nodup := ((h1.map Prod.fst).nodup_iff).mp nd1
    obtain ⟨r1, r2, ha1, ha2, rfl⟩ := valueDiffs_entry fo m1 m2 nd1 k d hd
    obtain ⟨r1', r2', hb1, hb2, rfl⟩ := valueDiffs_entry fo' m1' m2' nd1' k d' hd'
    have e1 : r1 = r1' := Option.some.inj (ha1.symm.trans ((hf1 k).trans hb1))
    have e2 : r2 = r2' := Option.some.inj (ha2.symm.trans ((hf2 k).trans hb2))
    rw [← e1, ← e2]
    exact compareRecords_perm fo fo' hfo hfo' r1 r2

/-! ## Key-map well-formedness (built maps have distinct keys) -/

theorem mem_keys_insertR (m : RMap) (k : String) (r : Record) (a : String) :
    a ∈ (insertR m k r).map Prod.fst ↔ a ∈ m.map Prod.fst ∨ a = k := by
  induction m with
  | nil => simp [insertR]
  | cons kv rest ih =>
    obtain ⟨k', r'⟩ := kv
    by_cases hk : k' = k
    · subst hk
      simp [insertR]
      tauto
    · simp [insertR, hk, ih]
      tauto

theorem insertR_nodup (m : RMap) (k : String) (r : Record)
    (nd : (m.map Prod.fst).Nodup) : ((insertR m k r).map Prod.fst).Nodup := by
  induction m with
  | nil => simp [insertR]
  | cons kv rest ih =>
    obtain ⟨k', r'⟩ := kv
    simp only [List.map_cons, List.nodup_cons] at nd
    by_cases hk : k' = k
    · subst hk
      have heq : insertR ((k', r') :: rest) k' r = (k', r) :: rest := by simp [insertR]
      rw [heq, List.map_cons, List.nodup_cons]
      exact ⟨nd.1, nd.2⟩
    · simp only [insertR, if_neg hk, List.map_cons, List.nodup_cons]
      refine ⟨?_, ih nd.2⟩
      rw [mem_keys_insertR]
      rintro (hmem | hEq)
      · exact nd.1 hmem
      · exact hk hEq

theorem storeByKey_nodup (keyField : String) (record : Record) (m : RMap)
    (nd : (m.map Prod.fst).Nodup) : ((storeByKey keyField record m).map Prod.fst).Nodup := by
  simp only [storeByKey]
  split
  · exact nd
  · exact insertR_nodup m _ record nd

theorem comparePhase_nodup (keyField : String) (cfg : PeriodicConfig) (timeTrig : Nat → Bool)
    (onPeriodicDiff : ComparisonResult → Except String Unit) (iterOrd : RMap → RMap)
    (fieldOrd : List String → List String) (fromSource1 : Bool) :
    ∀ (rs : List Record) (st st' : CompState),
      comparePhase keyField cfg timeTrig onPeriodicDiff iterOrd fieldOrd fromSource1 rs st
          = .ok st' →
      (st.m1.map Prod.fst).Nodup → (st.m2.map Prod.fst).Nodup →
      (st'.m1.map Prod.fst).Nodup ∧ (st'.m2.map Prod.fst).Nodup := by
  intro rs
  induction rs with
  | nil =>
    intro st st' h nd1 nd2
    obtain rfl := Except.ok.inj h
    exact ⟨nd1, nd2⟩
  | cons r rest ih =>
    intro st st' h nd1 nd2
    simp only [comparePhase] at h
    cases hp : processOne keyField cfg timeTrig onPeriodicDiff iterOrd fieldOrd fromSource1
        r st with
    | error e => rw [hp] at h; simp at h
    | ok stm =>
      rw [hp] at h
      dsimp only at h
      obtain ⟨_, _, _, hm1, hm2⟩ := processOne_ok_spec _ _ _ _ _ _ _ _ _ _ hp
      refine ih stm st' h ?_ ?_
      · rw [hm1]; cases fromSource1 <;> simp
        · exact nd1
        · exact storeByKey_nodup _ _ _ nd1
      · rw [hm2]; cases fromSource1 <;> simp
        · exact storeByKey_nodup _ _ _ nd2
        · exact nd2

/-! ## C1: the concrete comparison scenario, for every iteration order -/

/-- C1: over source1 with keys 1,2,3 and source2 with keys 1,2,4, where the
two records for key 1 differ in exactly one field and key 2's records are
identical, `Compare` returns a final result with `MatchingKeys = 2`,
`IdenticalRows = 1`, `ValueDiffs` holding exactly one entry (for key "1")
with exactly one `FieldDiff`, `KeysOnlyInSource1 = ["3"]` and
`KeysOnlyInSource2 = ["4"]` — for every possible iteration order of the
key maps and of the field-union set. -/
theorem compare_c1 (iterOrd : RMap → RMap) (fieldOrd : List String → List String)
    (hord : ∀ m, (iterOrd m).Perm m) (hford : ∀ l, (fieldOrd l).Perm l) :
    ∃ res,
      compare "id" cfgDisabled (fun _ => false) okCallback iterOrd fieldOrd
          [c1rec1, c1rec2, c1rec3] [c1rec1b, c1rec2, c1rec4] = .ok res
      ∧ res.recordsProcessed = 6 ∧ res.source1Records = 3 ∧ res.source2Records = 3
      ∧ res.matchingKeys = 2 ∧ res.identicalRows = 1
      ∧ res.keysOnlyInSource1 = ["3"] ∧ res.keysOnlyInSource2 = ["4"]
      ∧ res.valueDiffs.map Prod.fst = ["1"]
      ∧ (∀ kd ∈ res.valueDiffs, kd.2.length = 1)
      ∧ res.isPeriodicReport = false := by
  have nd1 : (((iterOrd [("1", c1rec1), ("2", c1rec2), ("3", c1rec3)]).map Prod.fst)).Nodup :=
    ((hord [("1", c1rec1), ("2", c1rec2), ("3", c1rec3)]).map Prod.fst).nodup_iff.mpr
      (by decide)
  have nd2 : (((iterOrd [("1", c1rec1b), ("2", c1rec2), ("4", c1rec4)]).map Prod.fst)).Nodup :=
    ((hord [("1", c1rec1b), ("2", c1rec2), ("4", c1rec4)]).map Prod.fst).nodup_iff.mpr
      (by decide)
  have hstab := generateResult_perm fieldOrd idFieldOrd hford (fun l => List.Perm.refl l)
    (iterOrd [("1", c1rec1), ("2", c1rec2), ("3", c1rec3)])
    [("1", c1rec1), ("2", c1rec2), ("3", c1rec3)]
    (iterOrd [("1", c1rec1b), ("2", c1rec2), ("4", c1rec4)])
    [("1", c1rec1b), ("2", c1rec2), ("4", c1rec4)]
    (hord _) (hord _) nd1 nd2 6 3 3 false
  have hvdk : ((generateFinalResult fieldOrd
      (iterOrd [("1", c1rec1), ("2", c1rec2), ("3", c1rec3)])
      (iterOrd [("1", c1rec1b), ("2", c1rec2), ("4", c1rec4)]) 6 3 3).valueDiffs.map
        Prod.fst) = ["1"] := by
    refine List.perm_singleton.mp ?_
    have hp := hstab.2.2.2.2.1
    rw [show ((generateResult idFieldOrd [("1", c1rec1), ("2", c1rec2), ("3", c1rec3)]
        [("1", c1rec1b), ("2", c1rec2), ("4", c1rec4)] 6 3 3 false).valueDiffs.map Prod.fst)
        = ["1"] from rfl] at hp
    exact hp
  refine ⟨generateFinalResult fieldOrd
      (iterOrd [("1", c1rec1), ("2", c1rec2), ("3", c1rec3)])
      (iterOrd [("1", c1rec1b), ("2", c1rec2), ("4", c1rec4)]) 6 3 3,
    rfl, rfl, rfl, rfl, ?_, ?_, ?_, ?_, hvdk, ?_, rfl⟩
  · exact hstab.1.trans (by decide)
  · exact hstab.2.1.trans (by decide)
  · refine List.perm_singleton.mp ?_
    have hp := hstab.2.2.1
    rw [show (generateResult idFieldOrd [("1", c1rec1), ("2", c1rec2), ("3", c1rec3)]
        [("1", c1rec1b), ("2", c1rec2), ("4", c1rec4)] 6 3 3 false).keysOnlyInSource1
        = ["3"] from by decide] at hp
    exact hp
  · refine List.perm_singleton.mp ?_
    have hp := hstab.2.2.2.1
    rw [show (generateResult idFieldOrd [("1", c1rec1), ("2", c1rec2), ("3", c1rec3)]
        [("1", c1rec1b), ("2", c1rec2), ("4", c1rec4)] 6 3 3 false).keysOnlyInSource2
        = ["4"] from by decide] at hp
    exact hp
  · intro kd hkd
    have hk : kd.1 = "1" := by
      have hmf : kd.1 ∈ ((generateFinalResult fieldOrd
          (iterOrd [("1", c1rec1), ("2", c1rec2), ("3", c1rec3)])
          (iterOrd [("1", c1rec1b), ("2", c1rec2), ("4", c1rec4)]) 6 3 3).valueDiffs.map
            Prod.fst) := List.mem_map_of_mem Prod.fst hkd
      rw [hvdk] at hmf
      simpa using hmf
    have hmem' : ("1", compareRecords idFieldOrd c1rec1 c1rec1b)
        ∈ (generateResult idFieldOrd [("1", c1rec1), ("2", c1rec2), ("3", c1rec3)]
            [("1", c1rec1b), ("2", c1rec2), ("4", c1rec4)] 6 3 3 false).valueDiffs := by
      show ("1", compareRecords idFieldOrd c1rec1 c1rec1b)
        ∈ [("1", compareRecords idFieldOrd c1rec1 c1rec1b)]
      exact List.mem_cons_self _ _
    have hmemL : ("1", kd.2) ∈ (generateResult fieldOrd
        (iterOrd [("1", c1rec1), ("2", c1rec2), ("3", c1rec3)])
        (iterOrd [("1", c1rec1b), ("2", c1rec2), ("4", c1rec4)]) 6 3 3 false).valueDiffs := by
      have hkd' : (kd.1, kd.2) ∈ (generateFinalResult fieldOrd
          (iterOrd [("1", c1rec1), ("2", c1rec2), ("3", c1rec3)])
          (iterOrd [("1", c1rec1b), ("2", c1rec2), ("4", c1rec4)]) 6 3 3).valueDiffs := hkd
      rw [hk] at hkd'
      exact hkd'
    have hperm := hstab.2.2.2.2.2 "1" kd.2 (compareRecords idFieldOrd c1rec1 c1rec1b)
      hmemL hmem'
    have hlen := hperm.length_eq
    rw [show (compareRecords idFieldOrd c1rec1 c1rec1b).length = 1 from rfl] at hlen
    exact hlen

/-- C1 witness: the scenario instantiated at the identity iteration
orders. -/
theorem compare_c1_witness :
    ∃ res,
      compare "id" cfgDisabled (fun _ => false) okCallback idOrd idFieldOrd
          [c1rec1, c1rec2, c1rec3] [c1rec1b, c1rec2, c1rec4] = .ok res
      ∧ res.recordsProcessed = 6 ∧ res.source1Records = 3 ∧ res.source2Records = 3
      ∧ res.matchingKeys = 2 ∧ res.identicalRows = 1
      ∧ res.keysOnlyInSource1 = ["3"] ∧ res.keysOnlyInSource2 = ["4"]
      ∧ res.valueDiffs.map Prod.fst = ["1"]
      ∧ (∀ kd ∈ res.valueDiffs, kd.2.length = 1)
      ∧ res.isPeriodicReport = false :=
  compare_c1 idOrd idFieldOrd (fun m => List.Perm.refl m) (fun l => List.Perm.refl l)

/-! ## C3: repeatability up to map iteration order -/

/-- C3 counterexample: runs of the comparator over the same fixed
in-memory streams, differing only in the (unspecified, randomized)
iteration order of Go's maps, produce observably different results —
refuting the claim that two runs agree in everything but `Timestamp`.
Runs 1 and 2 differ only in the key-map order and produce
`KeysOnlyInSource1` lists in different element orders; runs 3 and 4 differ
only in the field-union order and produce, for the matched key "1" whose
records differ in two fields, `FieldDiff` lists in different element
orders.  (The first two conjuncts check that the reversing orders are
permutations, i.e. legitimate iteration orders.) -/
theorem compare_c3_counterexample :
    (∀ m : RMap, (revOrd m).Perm m)
    ∧ (∀ l : List String, (revFieldOrd l).Perm l)
    ∧ c3run1 = .ok (exceptResult c3run1)
    ∧ c3run2 = .ok (exceptResult c3run2)
    ∧ (exceptResult c3run1).keysOnlyInSource1 = ["1", "2"]
    ∧ (exceptResult c3run2).keysOnlyInSource1 = ["2", "1"]
    ∧ (exceptResult c3run1).keysOnlyInSource1
        ≠ (exceptResult c3run2).keysOnlyInSource1
    ∧ c3run3 = .ok (exceptResult c3run3)
    ∧ c3run4 = .ok (exceptResult c3run4)
    ∧ (exceptResult c3run3).valueDiffs.map (fun kd => (kd.1, kd.2.map FieldDiff.field))
        = [("1", ["name", "age"])]
    ∧ (exceptResult c3run4).valueDiffs.map (fun kd => (kd.1, kd.2.map FieldDiff.field))
        = [("1", ["age", "name"])]
    ∧ (exceptResult c3run3).valueDiffs.map (fun kd => (kd.1, kd.2.map FieldDiff.field))
        ≠ (exceptResult c3run4).valueDiffs.map (fun kd => (kd.1, kd.2.map FieldDiff.field)) := by
  refine ⟨fun m => m.reverse_perm, fun l => l.reverse_perm, rfl, rfl, rfl, rfl, by decide,
    rfl, rfl, rfl, rfl, by decide⟩

/-- A single `Compare` step does not depend on the iteration-order
choices: if it succeeds under two different order pairs the resulting
states are equal (the orders only affect the content handed to the
callback, and on the success path only `lastReportRecords` is updated,
identically). -/
theorem processOne_ord_ok (keyField : String) (cfg : PeriodicConfig) (timeTrig : Nat → Bool)
    (onPeriodicDiff : ComparisonResult → Except String Unit) (iterOrd iterOrd' : RMap → RMap)
    (fieldOrd fieldOrd' : List String → List String)
    (fromSource1 : Bool) (record : Record) (st s1 s2 : CompState)
    (h : processOne keyField cfg timeTrig onPeriodicDiff iterOrd fieldOrd fromSource1 record st
        = .ok s1)
    (h' : processOne keyField cfg timeTrig onPeriodicDiff iterOrd' fieldOrd' fromSource1
        record st = .ok s2) : s1 = s2 := by
  simp only [processOne] at h h'
  by_cases htrig : shouldReportPeriodic cfg
      (timeTrig (ingestRecord keyField fromSource1 record st).rp)
      (ingestRecord keyField fromSource1 record st).rp
      (ingestRecord keyField fromSource1 record st).lrr
  · rw [if_pos htrig] at h h'
    cases hcb : onPeriodicDiff (generatePeriodicResult fieldOrd
        (iterOrd (ingestRecord keyField fromSource1 record st).m1)
        (iterOrd (ingestRecord keyField fromSource1 record st).m2)
        (ingestRecord keyField fromSource1 record st).rp
        (ingestRecord keyField fromSource1 record st).c1
        (ingestRecord keyField fromSource1 record st).c2) with
    | error e => rw [hcb] at h; exact absurd h (by simp)
    | ok u =>
      rw [hcb] at h
      cases hcb' : onPeriodicDiff (generatePeriodicResult fieldOrd'
          (iterOrd' (ingestRecord keyField fromSource1 record st).m1)
          (iterOrd' (ingestRecord keyField fromSource1 record st).m2)
          (ingestRecord keyField fromSource1 record st).rp
          (ingestRecord keyField fromSource1 record st).c1
          (ingestRecord keyField fromSource1 record st).c2) with
      | error e => rw [hcb'] at h'; exact absurd h' (by simp)
      | ok u' =>
        rw [hcb'] at h'
        obtain rfl := Except.ok.inj h
        obtain rfl := Except.ok.inj h'
        rfl
  · rw [if_neg htrig] at h h'
    obtain rfl := Except.ok.inj h
    obtain rfl := Except.ok.inj h'
    rfl

/-- A whole phase does not depend on the iteration-order choices when both
runs succeed. -/
theorem comparePhase_ord_ok (keyField : String) (cfg : PeriodicConfig) (timeTrig : Nat → Bool)
    (onPeriodicDiff : ComparisonResult → Except String Unit) (iterOrd iterOrd' : RMap → RMap)
    (fieldOrd fieldOrd' : List String → List String)
    (fromSource1 : Bool) :
    ∀ (rs : List Record) (st s1 s2 : CompState),
      comparePhase keyField cfg timeTrig onPeriodicDiff iterOrd fieldOrd fromSource1 rs st
          = .ok s1 →
      comparePhase keyField cfg timeTrig onPeriodicDiff iterOrd' fieldOrd' fromSource1 rs st
          = .ok s2 →
      s1 = s2 := by
  intro rs
  induction rs with
  | nil =>
    intro st s1 s2 h h'
    obtain rfl := Except.ok.inj h
    obtain rfl := Except.ok.inj h'
    rfl
  | cons r rest ih =>
    intro st s1 s2 h h'
    simp only [comparePhase] at h h'
    cases hp : processOne keyField cfg timeTrig onPeriodicDiff iterOrd fieldOrd fromSource1
        r st with
    | error e => rw [hp] at h; simp at h
    | ok stm =>
      rw [hp] at h
      dsimp only at h
      cases hp' : processOne keyField cfg timeTrig onPeriodicDiff iterOrd' fieldOrd'
          fromSource1 r st with
      | error e => rw [hp'] at h'; simp at h'
      | ok stm' =>
        rw [hp'] at h'
        dsimp only at h'
        obtain rfl : stm = stm' :=
          processOne_ord_ok _ _ _ _ _ _ _ _ _ _ _ _ _ hp hp'
        exact ih stm s1 s2 h h'

/-- C3 (amended): two runs of the comparator over the same two fixed
in-memory streams that both complete produce final results that are
identical in every field except Timestamp and except the element order of
`KeysOnlyInSource1`, `KeysOnlyInSource2`, the `ValueDiffs` entry list and
each `ValueDiffs` entry's `FieldDiff` list, which depend on the
unspecified map iteration orders (of the key maps and of the per-pair
field-union set) and agree as multisets (permutations). -/
theorem compare_c3 (keyField : String) (cfg : PeriodicConfig) (timeTrig : Nat → Bool)
    (onPeriodicDiff : ComparisonResult → Except String Unit) (iterOrd iterOrd' : RMap → RMap)
    (fieldOrd fieldOrd' : List String → List String)
    (hord : ∀ m, (iterOrd m).Perm m) (hord' : ∀ m, (iterOrd' m).Perm m)
    (hford : ∀ l, (fieldOrd l).Perm l) (hford' : ∀ l, (fieldOrd' l).Perm l)
    (source1 source2 : List Record) (r r' : ComparisonResult)
    (h : compare keyField cfg timeTrig onPeriodicDiff iterOrd fieldOrd source1 source2
        = .ok r)
    (h' : compare keyField cfg timeTrig onPeriodicDiff iterOrd' fieldOrd' source1 source2
        = .ok r') :
    r.recordsProcessed = r'.recordsProcessed
    ∧ r.source1Records = r'.source1Records
    ∧ r.source2Records = r'.source2Records
    ∧ r.isPeriodicReport = r'.isPeriodicReport
    ∧ r.matchingKeys = r'.matchingKeys
    ∧ r.identicalRows = r'.identicalRows
    ∧ r.keysOnlyInSource1.Perm r'.keysOnlyInSource1
    ∧ r.keysOnlyInSource2.Perm r'.keysOnlyInSource2
    ∧ (r.valueDiffs.map Prod.fst).Perm (r'.valueDiffs.map Prod.fst)
    ∧ (∀ (k : String) (d d' : List FieldDiff),
        (k, d) ∈ r.valueDiffs → (k, d') ∈ r'.valueDiffs → d.Perm d') := by
  simp only [compare] at h h'
  cases hp1 : comparePhase keyField cfg timeTrig onPeriodicDiff iterOrd fieldOrd true source1
      initState with
  | error e => rw [hp1] at h; simp at h
  | ok st1 =>
    rw [hp1] at h
    dsimp only at h
    cases hp2 : comparePhase keyField cfg timeTrig onPeriodicDiff iterOrd fieldOrd false
        source2 st1 with
    | error e => rw [hp2] at h; simp at h
    | ok st2 =>
      rw [hp2] at h
      dsimp only at h
      cases hp1' : comparePhase keyField cfg timeTrig onPeriodicDiff iterOrd' fieldOrd' true
          source1 initState with
      | error e => rw [hp1'] at h'; simp at h'
      | ok st1' =>
        rw [hp1'] at h'
        dsimp only at h'
        obtain rfl : st1 = st1' :=
          comparePhase_ord_ok _ _ _ _ _ _ _ _ _ _ _ _ _ hp1 hp1'
        cases hp2' : comparePhase keyField cfg timeTrig onPeriodicDiff iterOrd' fieldOrd'
            false source2 st1 with
        | error e => rw [hp2'] at h'; simp at h'
        | ok st2' =>
          rw [hp2'] at h'
          dsimp only at h'
          obtain rfl : st2 = st2' :=
            comparePhase_ord_ok _ _ _ _ _ _ _ _ _ _ _ _ _ hp2 hp2'
          obtain rfl := Except.ok.inj h
          obtain rfl := Except.ok.inj h'
          have hnda := comparePhase_nodup _ _ _ _ _ _ _ _ _ _ hp1
            (by simp [initState]) (by simp [initState])
          have hndb := comparePhase_nodup _ _ _ _ _ _ _ _ _ _ hp2 hnda.1 hnda.2
          have hstab := generateResult_perm fieldOrd fieldOrd' hford hford'
            (iterOrd st2.m1) (iterOrd' st2.m1) (iterOrd st2.m2) (iterOrd' st2.m2)
            ((hord st2.m1).trans (hord' st2.m1).symm)
            ((hord st2.m2).trans (hord' st2.m2).symm)
            (((hord st2.m1).map Prod.fst).nodup_iff.mpr hndb.1)
            (((hord st2.m2).map Prod.fst).nodup_iff.mpr hndb.2)
            st2.rp st2.c1 st2.c2 false
          exact ⟨rfl, rfl, rfl, rfl, hstab.1, hstab.2.1, hstab.2.2.1, hstab.2.2.2.1,
            hstab.2.2.2.2.1, hstab.2.2.2.2.2⟩

/-- C3 witness: the amended theorem applied to the two concrete runs of the
field-order counterexample scenario: the two `ValueDiffs` key lists are
permutations of each other, the `FieldDiff` lists of the shared key "1"
are permutations of each other, and the matching-key counts agree. -/
theorem compare_c3_witness :
    ((exceptResult c3run3).valueDiffs.map Prod.fst).Perm
        ((exceptResult c3run4).valueDiffs.map Prod.fst)
    ∧ (∀ (d d' : List FieldDiff),
        ("1", d) ∈ (exceptResult c3run3).valueDiffs →
        ("1", d') ∈ (exceptResult c3run4).valueDiffs → d.Perm d')
    ∧ (exceptResult c3run3).matchingKeys = (exceptResult c3run4).matchingKeys := by
  have h := compare_c3 "id" cfgDisabled (fun _ => false) okCallback idOrd idOrd
    idFieldOrd revFieldOrd
    (fun m => List.Perm.refl m) (fun m => List.Perm.refl m)
    (fun l => List.Perm.refl l) (fun l => l.reverse_perm)
    [c1rec1] [c3rec1c] (exceptResult c3run3) (exceptResult c3run4) rfl rfl
  exact ⟨h.2.2.2.2.2.2.2.2.1, fun d d' => h.2.2.2.2.2.2.2.2.2 "1" d d', h.2.2.2.2.1⟩

/-- C4 witness: the amended universal statement applied to a fresh
three-email sample (100% > 80%). -/
theorem offlineDetect_c4_witness :
    offlineDetectPatterns "contact" "string"
        [.vstr "ann@a.com", .vstr "ben@b.org", .vstr "cat@c.net"]
      = [Matcher.regex emailPattern] :=
  offlineDetect_c4.1 "contact" "string"
    [.vstr "ann@a.com", .vstr "ben@b.org", .vstr "cat@c.net"] (by decide)

/-! ## C7: type-inference precedence -/

/-- The flags computed by `inferType`'s loop, characterized: each flag
holds exactly when every value is nil or passes the flag's test, and the
non-nil counter counts the non-nil values. -/
theorem foldl_inferStep_spec (values : List Value) :
    ∀ fl : TypeFlags,
      (values.foldl inferStep fl).isObjectF
          = (fl.isObjectF && values.all (fun v => isNullV v || isObjV v))
      ∧ (values.foldl inferStep fl).isArrayF
          = (fl.isArrayF && values.all (fun v => isNullV v || isArrV v))
      ∧ (values.foldl inferStep fl).isNumericF
          = (fl.isNumericF && values.all (fun v => isNullV v || parseFloatOK (sprintv v)))
      ∧ (values.foldl inferStep fl).isDateTimeF
          = (fl.isDateTimeF && values.all (fun v => isNullV v || matchesAnyLayout (sprintv v)))
      ∧ (values.foldl inferStep fl).nonNilCount
          = fl.nonNilCount + values.countP (fun v => !isNullV v) := by
  induction values with
  | nil => intro fl; simp
  | cons v rest ih =>
    intro fl
    simp only [List.foldl_cons, List.all_cons, List.countP_cons]
    obtain ⟨i1, i2, i3, i4, i5⟩ := ih (inferStep fl v)
    by_cases hn : isNullV v
    · rw [i1, i2, i3, i4, i5]
      refine ⟨?_, ?_, ?_, ?_, ?_⟩ <;> simp [inferStep, hn]
    · rw [i1, i2, i3, i4, i5]
      refine ⟨?_, ?_, ?_, ?_, ?_⟩
      · simp [inferStep, hn, Bool.and_assoc]
      · simp [inferStep, hn, Bool.and_assoc]
      · simp [inferStep, hn, Bool.and_assoc]
      · simp [inferStep, hn, Bool.and_assoc]
      · simp [inferStep, hn]
        omega

/-- `inferType` restated as the spec's decision list: non-nil values only;
no non-nil value gives "unknown"; otherwise the first of
object/array/numeric/datetime whose test every non-nil value passes, else
"string". -/
theorem inferType_eq_spec (values : List Value) :
    inferType values =
      (if values.length = 0 then "unknown"
       else if values.countP (fun v => !isNullV v) = 0 then "unknown"
       else if values.all (fun v => isNullV v || isObjV v) then "object"
       else if values.all (fun v => isNullV v || isArrV v) then "array"
       else if values.all (fun v => isNullV v || parseFloatOK (sprintv v)) then "numeric"
       else if values.all (fun v => isNullV v || matchesAnyLayout (sprintv v)) then "datetime"
       else "string") := by
  by_cases hlen : values.length = 0
  · simp [inferType, hlen]
  · obtain ⟨f1, f2, f3, f4, f5⟩ := foldl_inferStep_spec values ⟨true, true, true, true, 0⟩
    simp only [inferType, if_neg hlen]
    rw [f1, f2, f3, f4, f5]
    simp

/-- Translation between the Boolean per-element test and the membership
formulation over non-nil values. -/
theorem all_nonNil_iff (values : List Value) (p : Value → Bool) :
    (values.all (fun v => isNullV v || p v) = true)
      ↔ (∀ v ∈ values, isNullV v = false → p v = true) := by
  rw [List.all_eq_true]
  constructor
  · intro h v hv hn
    have := h v hv
    rwa [hn, Bool.false_or] at this
  · intro h v hv
    by_cases hn : isNullV v
    · simp [hn]
    · simp only [Bool.or_eq_true]
      exact Or.inr (h v hv (by simpa using hn))

set_option maxRecDepth 8192 in
/-- C7: `inferType` evaluates only the non-null values and returns
"unknown" when none remain; otherwise "object" when every non-null value
is a nested record; else "array" when every one is a sequence; else
"numeric" when every one's generic string form parses as a float; else
"datetime" when every one's string form matches one of the fixed layouts;
else "string" — and in particular mixed numeric-typed values and
numeric-like strings classify as "numeric". -/
theorem inferType_c7 (values : List Value) :
    (values.countP (fun v => !isNullV v) = 0 → inferType values = "unknown")
    ∧ ((∃ v ∈ values, isNullV v = false) →
        ((∀ v ∈ values, isNullV v = false → isObjV v = true) →
            inferType values = "object")
        ∧ (¬ (∀ v ∈ values, isNullV v = false → isObjV v = true) →
            (∀ v ∈ values, isNullV v = false → isArrV v = true) →
            inferType values = "array")
        ∧ (¬ (∀ v ∈ values, isNullV v = false → isObjV v = true) →
            ¬ (∀ v ∈ values, isNullV v = false → isArrV v = true) →
            (∀ v ∈ values, isNullV v = false → parseFloatOK (sprintv v) = true) →
            inferType values = "numeric")
        ∧ (¬ (∀ v ∈ values, isNullV v = false → isObjV v = true) →
            ¬ (∀ v ∈ values, isNullV v = false → isArrV v = true) →
            ¬ (∀ v ∈ values, isNullV v = false → parseFloatOK (sprintv v) = true) →
            (∀ v ∈ values, isNullV v = false → matchesAnyLayout (sprintv v) = true) →
            inferType values = "datetime")
        ∧ (¬ (∀ v ∈ values, isNullV v = false → isObjV v = true) →
            ¬ (∀ v ∈ values, isNullV v = false → isArrV v = true) →
            ¬ (∀ v ∈ values, isNullV v = false → parseFloatOK (sprintv v) = true) →
            ¬ (∀ v ∈ values, isNullV v = false → matchesAnyLayout (sprintv v) = true) →
            inferType values = "string"))
    ∧ inferType [Value.vint 42, Value.vstr "3.14"] = "numeric" := by
  refine ⟨?_, ?_, by decide⟩
  · intro hcp
    rw [inferType_eq_spec]
    by_cases hlen : values.length = 0
    · rw [if_pos hlen]
    · rw [if_neg hlen, if_pos hcp]
  · intro hex
    have hlen : ¬ values.length = 0 := by
      obtain ⟨v, hv, _⟩ := hex
      intro h0
      rw [List.eq_nil_of_length_eq_zero h0] at hv
      exact absurd hv (List.not_mem_nil v)
    have hcp : ¬ values.countP (fun v => !isNullV v) = 0 := by
      obtain ⟨v, hv, hnn⟩ := hex
      have : 0 < values.countP (fun v => !isNullV v) :=
        List.countP_pos_iff.mpr ⟨v, hv, by simp [hnn]⟩
      omega
    have base : inferType values =
        (if values.all (fun v => isNullV v || isObjV v) then "object"
         else if values.all (fun v => isNullV v || isArrV v) then "array"
         else if values.all (fun v => isNullV v || parseFloatOK (sprintv v)) then "numeric"
         else if values.all (fun v => isNullV v || matchesAnyLayout (sprintv v)) then
           "datetime"
         else "string") := by
      rw [inferType_eq_spec, if_neg hlen, if_neg hcp]
    refine ⟨?_, ?_, ?_, ?_, ?_⟩
    · intro hobj
      rw [base, if_pos ((all_nonNil_iff values isObjV).mpr hobj)]
    · intro hnobj harr
      rw [base, if_neg (fun hc => hnobj ((all_nonNil_iff values isObjV).mp hc)),
        if_pos ((all_nonNil_iff values isArrV).mpr harr)]
    · intro hnobj hnarr hnum
      rw [base, if_neg (fun hc => hnobj ((all_nonNil_iff values isObjV).mp hc)),
        if_neg (fun hc => hnarr ((all_nonNil_iff values isArrV).mp hc)),
        if_pos ((all_nonNil_iff values (fun v => parseFloatOK (sprintv v))).mpr hnum)]
    · intro hnobj hnarr hnnum hdt
      rw [base, if_neg (fun hc => hnobj ((all_nonNil_iff values isObjV).mp hc)),
        if_neg (fun hc => hnarr ((all_nonNil_iff values isArrV).mp hc)),
        if_neg (fun hc => hnnum
          ((all_nonNil_iff values (fun v => parseFloatOK (sprintv v))).mp hc)),
        if_pos ((all_nonNil_iff values (fun v => matchesAnyLayout (sprintv v))).mpr hdt)]
    · intro hnobj hnarr hnnum hndt
      rw [base, if_neg (fun hc => hnobj ((all_nonNil_iff values isObjV).mp hc)),
        if_neg (fun hc => hnarr ((all_nonNil_iff values isArrV).mp hc)),
        if_neg (fun hc => hnnum
          ((all_nonNil_iff values (fun v => parseFloatOK (sprintv v))).mp hc)),
        if_neg (fun hc => hndt
          ((all_nonNil_iff values (fun v => matchesAnyLayout (sprintv v))).mp hc))]

set_option maxRecDepth 8192 in
/-- C7 witness: a sample mixing a null, a numeric-typed value and a
numeric-like string classifies as numeric, through the theorem's numeric
branch. -/
theorem inferType_c7_witness :
    inferType [Value.vnull, Value.vint 7, Value.vstr "2.5"] = "numeric" := by
  have h := (inferType_c7 [Value.vnull, Value.vint 7, Value.vstr "2.5"]).2.1
    ⟨Value.vint 7, List.mem_cons_of_mem _ (List.mem_cons_self _ _), rfl⟩
  exact h.2.2.1 (by decide) (by decide) (by decide)

end StreamDiff
